import Mathlib

/-!
# Tutorate server — shallow embedding and verification

A shallow embedding of the data model and route handlers of the tutorate
marketplace backend (`src/index.js`), together with proofs about its
lifecycle operations: tuition posting, tutor applications, the
student's approve/reject decision, and the payment-driven assignment
transaction.

Modelling conventions:
* MongoDB collections are lists of records; `updateOne` is `updateFirst`
  (updates the first matching document), `updateMany` is a conditional
  `List.map`, `deleteOne` is `deleteFirst`, `insertOne` appends.
  Mongo-generated object ids are modelled by a `nextId` counter.
* The Firebase verifier is external: a request carries its verified token
  email (the `NO_TOKEN` / `INVALID_TOKEN` / `TOKEN_EXPIRED` paths concern
  that external verifier and are outside the model).
* Timestamps (`new Date()`) are a `now : Nat` parameter.
* Express responses are a `Resp` record of HTTP status, `success` flag,
  and the `code` / `error` / `message` body fields the source sends.
* Request fields that a handler only copies verbatim into a document and
  never branches on (institution, location, schedule, …) are elided;
  every field a handler reads, guards on, or updates non-trivially is kept.
* A JavaScript field access on `null` (e.g. `student._id` when the lookup
  missed) throws and is caught by the route's `catch`, producing a 500
  response; the embedding models those paths explicitly, including the
  writes already performed before the throw.
-/

/-- Account role (`users.role`). -/
inductive Role where
  | student
  | tutor
  | admin
deriving DecidableEq, Repr

/-- Account status (`users.status`). -/
inductive UserStatus where
  | pending
  | active
  | blocked
  | deleted
deriving DecidableEq, Repr

/-- Tuition post status (`tuitions.status`). -/
inductive TuitionStatus where
  | pending
  | active
  | rejected
  | ongoing
  | completed
  | deleted
deriving DecidableEq, Repr

/-- Application status (`applications.status`). -/
inductive AppStatus where
  | pending
  | approved
  | rejected
deriving DecidableEq, Repr

/-- A `users` document (fields the handlers branch on). -/
structure Account where
  id : Nat
  email : String
  name : String
  role : Role
  status : UserStatus
deriving DecidableEq, Repr

/-- A `tuitions` document. Content fields other than `title` / `subject`
(institution, location, budget, schedule, …) are copied verbatim by the
handlers and elided here. -/
structure TuitionPost where
  id : Nat
  studentId : Nat
  title : String
  subject : String
  status : TuitionStatus
  tutorId : Option Nat
  applicants : Int
  deletedAt : Option Nat
  posted : Nat
  updatedAt : Nat
deriving DecidableEq, Repr

/-- An `applications` document. -/
structure Application where
  id : Nat
  tuitionPostId : Nat
  tutorId : Nat
  qualifications : String
  experience : Nat
  expectedSalary : Nat
  status : AppStatus
  appliedAt : Nat
  updatedAt : Nat
deriving DecidableEq, Repr

/-- A `payments` document. -/
structure PaymentRecord where
  applicationId : Nat
  tuitionId : Nat
  studentId : Nat
  tutorId : Nat
  amount : Nat
  status : String
  transactionId : String
  createdAt : Nat
deriving DecidableEq, Repr

/-- The four collections plus the id generator. -/
structure DB where
  users : List Account
  tuitions : List TuitionPost
  applications : List Application
  payments : List PaymentRecord
  nextId : Nat
deriving DecidableEq, Repr

/-- `updateOne`: apply `f` to the first element satisfying `p`. -/
def updateFirst (p : α → Bool) (f : α → α) : List α → List α
  | [] => []
  | x :: xs => if p x then f x :: xs else x :: updateFirst p f xs

/-- `deleteOne`: remove the first element satisfying `p`. -/
def deleteFirst (p : α → Bool) : List α → List α
  | [] => []
  | x :: xs => if p x then xs else x :: deleteFirst p xs

/-- An HTTP response: status code, `success` flag, and the body fields
(`code`, `error`, `message`) the source sends. -/
structure Resp where
  status : Nat
  success : Bool
  code : Option String := none
  error : Option String := none
  message : Option String := none
deriving DecidableEq, Repr

/-- 401 `USER_NOT_FOUND` (verifyToken: verified email not in `users`). -/
def respUserNotFound : Resp :=
  { status := 401, success := false, error := some "User not found in database",
    code := some "USER_NOT_FOUND" }

/-- 403 `ACCOUNT_BLOCKED` (verifyToken). -/
def respAccountBlocked : Resp :=
  { status := 403, success := false, error := some "Your account has been blocked",
    code := some "ACCOUNT_BLOCKED" }

/-- 403 insufficient permissions (verifyRole). -/
def respInsufficientPermissions : Resp :=
  { status := 403, success := false,
    error := some "Access denied. Insufficient permissions." }

/-- 401 email-parameter mismatch with `UNAUTHORIZED_ACCESS` code. -/
def respUnauthorizedAccess : Resp :=
  { status := 401, success := false, error := some "Forbidden access",
    code := some "UNAUTHORIZED_ACCESS" }

/-- 401 email-parameter mismatch without a `code` field (admin / payment
routes). -/
def respForbiddenAccess : Resp :=
  { status := 401, success := false, error := some "Forbidden access" }

/-- 403 with a message. -/
def respForbidden (msg : String) : Resp :=
  { status := 403, success := false, error := some msg }

/-- 404 with a message. -/
def respNotFound (msg : String) : Resp :=
  { status := 404, success := false, error := some msg }

/-- 400 with a message. -/
def respBadRequest (msg : String) : Resp :=
  { status := 400, success := false, error := some msg }

/-- 500 from the route's `catch` block. -/
def respServerError : Resp :=
  { status := 500, success := false, error := some "internal" }

/-- 200 with a message. -/
def respOk (msg : String) : Resp :=
  { status := 200, success := true, message := some msg }

/-- 200 success with only data. -/
def respOkPlain : Resp :=
  { status := 200, success := true }

/-- 201 with a message. -/
def respCreated (msg : String) : Resp :=
  { status := 201, success := true, message := some msg }

/-- Result of the `verifyToken` middleware. -/
inductive Auth where
  | ok (u : Account)
  | err (r : Resp)

/-- `verifyToken`: look up the verified token email in `users`, refuse
unknown and blocked accounts. -/
def verifyToken (db : DB) (tokenEmail : String) : Auth :=
  match db.users.find? (fun u => u.email == tokenEmail) with
  | none => .err respUserNotFound
  | some u =>
    if u.status == UserStatus.blocked then .err respAccountBlocked
    else .ok u

/-- Run a handler behind `verifyToken`. -/
def withAuth (db : DB) (tokenEmail : String) (k : Account → Resp × DB) : Resp × DB :=
  match verifyToken db tokenEmail with
  | .err r => (r, db)
  | .ok u => k u

/-- Run a handler behind `verifyToken` and `verifyRole(allowedRoles)`. -/
def withRole (db : DB) (tokenEmail : String) (allowed : List Role)
    (k : Account → Resp × DB) : Resp × DB :=
  withAuth db tokenEmail fun u =>
    if allowed.contains u.role then k u
    else (respInsufficientPermissions, db)

/-- `POST /api/users` — registration (`src/index.js` 386–465).
Role-specific profile fields are copied verbatim and elided. -/
def registerUser (db : DB) (name email phone role uid : String) : Resp × DB :=
  if name == "" || email == "" || phone == "" || role == "" || uid == "" then
    (respBadRequest "All fields are required", db)
  else if !(["student", "tutor"].contains role) then
    (respBadRequest "Invalid role selected", db)
  else if (db.users.find? (fun u => u.email == email)).isSome then
    (respBadRequest "User with this email already exists", db)
  else
    let newUser : Account :=
      { id := db.nextId, email := email, name := name,
        role := if role == "tutor" then .tutor else .student,
        status := if role == "tutor" then .pending else .active }
    (respCreated "registered",
     { db with users := db.users ++ [newUser], nextId := db.nextId + 1 })

/-- `POST /api/tuitions` — create a tuition post (student only,
`src/index.js` 880–1029). Of the required-field check, the fields kept in
the model (`title`, `subject`) are checked; the new post always starts
`pending` with zero applicants. -/
def createTuition (db : DB) (tokenEmail emailParam : String)
    (title subject : String) (now : Nat) : Resp × DB :=
  withRole db tokenEmail [.student] fun _u =>
    if emailParam != tokenEmail then (respUnauthorizedAccess, db)
    else match db.users.find? (fun x => x.email == emailParam) with
    | none => (respNotFound "Student not found", db)
    | some student =>
      if title == "" || subject == "" then
        (respBadRequest "Please fill in all required fields", db)
      else
        let newTuition : TuitionPost :=
          { id := db.nextId, studentId := student.id, title := title,
            subject := subject, status := .pending, tutorId := none,
            applicants := 0, deletedAt := none, posted := now, updatedAt := now }
        (respCreated "Tuition posted successfully and awaiting admin approval",
         { db with tuitions := db.tuitions ++ [newTuition], nextId := db.nextId + 1 })

/-- `PUT /api/tuitions/:id` — edit a tuition post (student only, own post,
`src/index.js` 1173–1314). Body fields are optional; an absent field is
removed from `updateData` and leaves the document value unchanged, and
`status` is `status || existingTuition.status` — a supplied status is
written as-is. -/
def updateTuition (db : DB) (tokenEmail emailParam : String) (tuitionId : Nat)
    (title? subject? : Option String) (status? : Option TuitionStatus)
    (now : Nat) : Resp × DB :=
  withRole db tokenEmail [.student] fun _u =>
    if emailParam != tokenEmail then (respUnauthorizedAccess, db)
    else match db.users.find? (fun x => x.email == emailParam) with
    | none => (respServerError, db)  -- JS: `student._id` on null throws → catch → 500
    | some student =>
      match db.tuitions.find? (fun t => t.id == tuitionId && t.studentId == student.id) with
      | none => (respNotFound "Tuition not found or you don't have permission", db)
      | some existingTuition =>
        let tuits := updateFirst (fun t => t.id == tuitionId)
          (fun t =>
            { t with
              title := title?.getD t.title,
              subject := subject?.getD t.subject,
              status := status?.getD existingTuition.status,
              updatedAt := now }) db.tuitions
        (respOk "Tuition updated successfully", { db with tuitions := tuits })

/-- `DELETE /api/tuitions/:id` — delete a tuition post (student only, own
post, `src/index.js` 1317–1402): refused while `ongoing`/`completed`;
soft delete when applications reference the post, hard delete otherwise. -/
def deleteTuition (db : DB) (tokenEmail emailParam : String) (tuitionId : Nat)
    (now : Nat) : Resp × DB :=
  withRole db tokenEmail [.student] fun _u =>
    if emailParam != tokenEmail then (respUnauthorizedAccess, db)
    else match db.users.find? (fun x => x.email == emailParam) with
    | none => (respServerError, db)  -- JS: `student._id` on null throws → catch → 500
    | some student =>
      match db.tuitions.find? (fun t => t.id == tuitionId && t.studentId == student.id) with
      | none => (respNotFound "Tuition not found or you don't have permission", db)
      | some tuition =>
        if tuition.status == .ongoing || tuition.status == .completed then
          (respBadRequest "Cannot delete an ongoing or completed tuition", db)
        else
          let applications :=
            (db.applications.filter (fun a => a.tuitionPostId == tuitionId)).length
          if applications > 0 then
            let softDelete : TuitionPost → TuitionPost := fun t =>
              { t with status := .deleted, deletedAt := some now, updatedAt := now }
            let tuits := updateFirst (fun t => t.id == tuitionId) softDelete db.tuitions
            (respOk "Tuition deleted successfully", { db with tuitions := tuits })
          else
            let tuits := deleteFirst (fun t => t.id == tuitionId) db.tuitions
            (respOk "Tuition deleted successfully", { db with tuitions := tuits })

/-- `PATCH /api/applications/:applicationId/:action` — the owning
student's approve / reject decision (`src/index.js` 1459–1545). An
approve only answers "Proceed to payment"; a reject marks the
application `rejected` and decrements the post's `applicants`. -/
def applicationDecision (db : DB) (tokenEmail emailParam : String)
    (applicationId : Nat) (action : String) (now : Nat) : Resp × DB :=
  withRole db tokenEmail [.student] fun _u =>
    if emailParam != tokenEmail then (respUnauthorizedAccess, db)
    else if !(["approve", "reject"].contains action) then
      (respBadRequest "Invalid action", db)
    else match db.applications.find? (fun a => a.id == applicationId) with
    | none => (respNotFound "Application not found", db)
    | some application =>
      match db.users.find? (fun x => x.email == emailParam) with
      | none => (respServerError, db)  -- JS: `student._id` on null throws → catch → 500
      | some student =>
        match db.tuitions.find?
            (fun t => t.id == application.tuitionPostId && t.studentId == student.id) with
        | none => (respForbidden "You don't have permission", db)
        | some _tuition =>
          if action == "approve" then
            (respOk "Proceed to payment", db)
          else
            let rejectIt : Application → Application := fun a =>
              { a with status := .rejected, updatedAt := now }
            let apps := updateFirst (fun a => a.id == applicationId) rejectIt db.applications
            let decr : TuitionPost → TuitionPost := fun t =>
              { t with applicants := t.applicants - 1 }
            let tuits := updateFirst (fun t => t.id == application.tuitionPostId) decr db.tuitions
            (respOk "Application rejected successfully",
             { db with applications := apps, tuitions := tuits })

/-- `POST /api/applications` — tutor applies to a tuition
(`src/index.js` 1552–1665): requires the post `active`, refuses a second
application for the same (post, tutor) pair, increments `applicants`. -/
def createApplication (db : DB) (tokenEmail emailParam : String)
    (tuitionId : Nat) (qualifications : String) (experience expectedSalary : Nat)
    (now : Nat) : Resp × DB :=
  withRole db tokenEmail [.tutor] fun _u =>
    if emailParam != tokenEmail then (respUnauthorizedAccess, db)
    else match db.users.find? (fun x => x.email == emailParam) with
    | none => (respNotFound "Tutor not found", db)
    | some tutor =>
      -- JS truthiness of the required-field check: empty string / 0 are falsy
      if qualifications == "" || experience == 0 || expectedSalary == 0 then
        (respBadRequest "All fields are required", db)
      else match db.tuitions.find? (fun t => t.id == tuitionId && t.status == .active) with
      | none => (respNotFound "Tuition not found or not available for applications", db)
      | some _tuition =>
        match db.applications.find?
            (fun a => a.tuitionPostId == tuitionId && a.tutorId == tutor.id) with
        | some _existing => (respBadRequest "You have already applied to this tuition", db)
        | none =>
          let newApplication : Application :=
            { id := db.nextId, tuitionPostId := tuitionId, tutorId := tutor.id,
              qualifications := qualifications, experience := experience,
              expectedSalary := expectedSalary, status := .pending,
              appliedAt := now, updatedAt := now }
          let incr : TuitionPost → TuitionPost := fun t =>
            { t with applicants := t.applicants + 1 }
          let tuits := updateFirst (fun t => t.id == tuitionId) incr db.tuitions
          (respCreated "Application submitted successfully",
           { db with applications := db.applications ++ [newApplication],
                     tuitions := tuits, nextId := db.nextId + 1 })

/-- `PUT /api/applications/:id` — tutor edits an application
(`src/index.js` 1765–1846); only allowed while `pending`. -/
def updateApplication (db : DB) (tokenEmail emailParam : String)
    (applicationId : Nat) (qualifications : String)
    (experience expectedSalary : Nat) (now : Nat) : Resp × DB :=
  withRole db tokenEmail [.tutor] fun _u =>
    if emailParam != tokenEmail then (respUnauthorizedAccess, db)
    else match db.users.find? (fun x => x.email == emailParam) with
    | none => (respServerError, db)  -- JS: `tutor._id` on null throws → catch → 500
    | some tutor =>
      match db.applications.find?
          (fun a => a.id == applicationId && a.tutorId == tutor.id) with
      | none => (respNotFound "Application not found or you don't have permission", db)
      | some application =>
        if application.status != .pending then
          (respBadRequest "Cannot update application after it has been reviewed", db)
        else
          let editIt : Application → Application := fun a =>
            { a with qualifications := qualifications, experience := experience, expectedSalary := expectedSalary, updatedAt := now }
          let apps := updateFirst (fun a => a.id == applicationId) editIt db.applications
          (respOk "Application updated successfully", { db with applications := apps })

/-- `DELETE /api/applications/:id` — tutor withdraws an application
(`src/index.js` 1849–1921); only allowed while `pending`; decrements the
post's `applicants`. -/
def deleteApplication (db : DB) (tokenEmail emailParam : String)
    (applicationId : Nat) : Resp × DB :=
  withRole db tokenEmail [.tutor] fun _u =>
    if emailParam != tokenEmail then (respUnauthorizedAccess, db)
    else match db.users.find? (fun x => x.email == emailParam) with
    | none => (respServerError, db)  -- JS: `tutor._id` on null throws → catch → 500
    | some tutor =>
      match db.applications.find?
          (fun a => a.id == applicationId && a.tutorId == tutor.id) with
      | none => (respNotFound "Application not found or you don't have permission", db)
      | some application =>
        if application.status != .pending then
          (respBadRequest "Cannot delete application after it has been reviewed", db)
        else
          let apps := deleteFirst (fun a => a.id == applicationId) db.applications
          let decr : TuitionPost → TuitionPost := fun t =>
            { t with applicants := t.applicants - 1 }
          let tuits := updateFirst (fun t => t.id == application.tuitionPostId) decr db.tuitions
          (respOk "Application deleted successfully",
           { db with applications := apps, tuitions := tuits })

/-- `PATCH /api/admin/tuitions/:tuitionId/approve` (admin only,
`src/index.js` 2408–2454). -/
def adminApproveTuition (db : DB) (tokenEmail emailParam : String)
    (tuitionId : Nat) (now : Nat) : Resp × DB :=
  withRole db tokenEmail [.admin] fun _u =>
    if emailParam != tokenEmail then (respForbiddenAccess, db)
    else
      let tuits := updateFirst (fun t => t.id == tuitionId)
        (fun t => { t with status := .active, updatedAt := now }) db.tuitions
      if (db.tuitions.find? (fun t => t.id == tuitionId)).isNone then
        (respNotFound "Tuition not found", { db with tuitions := tuits })
      else
        (respOk "Tuition approved successfully", { db with tuitions := tuits })

/-- `PATCH /api/admin/tuitions/:tuitionId/reject` (admin only,
`src/index.js` 2457–2503). -/
def adminRejectTuition (db : DB) (tokenEmail emailParam : String)
    (tuitionId : Nat) (now : Nat) : Resp × DB :=
  withRole db tokenEmail [.admin] fun _u =>
    if emailParam != tokenEmail then (respForbiddenAccess, db)
    else
      let tuits := updateFirst (fun t => t.id == tuitionId)
        (fun t => { t with status := .rejected, updatedAt := now }) db.tuitions
      if (db.tuitions.find? (fun t => t.id == tuitionId)).isNone then
        (respNotFound "Tuition not found", { db with tuitions := tuits })
      else
        (respOk "Tuition rejected successfully", { db with tuitions := tuits })

/-- `POST /api/create-payment-intent` (student only, `src/index.js`
2670–2737): verifies the caller owns the tuition the application targets
(403 otherwise); the Stripe charge-intent call is external and writes
nothing to the stores. -/
def createPaymentIntent (db : DB) (tokenEmail emailParam : String)
    (applicationId : Nat) : Resp × DB :=
  withRole db tokenEmail [.student] fun _u =>
    if emailParam != tokenEmail then (respForbiddenAccess, db)
    else match db.applications.find? (fun a => a.id == applicationId) with
    | none => (respNotFound "Application not found", db)
    | some application =>
      match db.users.find? (fun x => x.email == emailParam) with
      | none => (respServerError, db)  -- JS: `student._id` on null throws → catch → 500
      | some student =>
        match db.tuitions.find?
            (fun t => t.id == application.tuitionPostId && t.studentId == student.id) with
        | none => (respForbidden "You don't have permission", db)
        | some _tuition => (respOkPlain, db)

/-- Steps 1–3 of the payment-assignment transaction (`src/index.js`
2774–2800): (1) mark the target application `approved`; (2) set the
tuition's `tutorId` and move it to `completed`; (3) reject every other
still-`pending` application on the same post. -/
def paymentSteps (db : DB) (application : Application) (applicationId : Nat)
    (now : Nat) : DB :=
  let apps1 := updateFirst (fun a => a.id == applicationId)
    (fun a => { a with status := .approved, updatedAt := now }) db.applications
  let assignTutor : TuitionPost → TuitionPost := fun t =>
    { t with tutorId := some application.tutorId, status := .completed, updatedAt := now }
  let tuits := updateFirst (fun t => t.id == application.tuitionPostId) assignTutor db.tuitions
  let apps2 := apps1.map (fun a =>
    if a.tuitionPostId == application.tuitionPostId && a.id != applicationId
        && a.status == .pending then
      { a with status := .rejected, updatedAt := now }
    else a)
  { db with applications := apps2, tuitions := tuits }

/-- Step 4: the appended `completed` PaymentRecord (`src/index.js`
2802–2814). -/
def paymentRecordOf (student : Account) (application : Application)
    (applicationId : Nat) (paymentIntentId : String) (now : Nat) : PaymentRecord :=
  { applicationId := applicationId, tuitionId := application.tuitionPostId,
    studentId := student.id, tutorId := application.tutorId,
    amount := application.expectedSalary, status := "completed",
    transactionId := paymentIntentId, createdAt := now }

/-- `POST /api/payment/success` — the payment-assignment transaction
(student only, `src/index.js` 2740–2828): runs `paymentSteps` and appends
one PaymentRecord. The tuition lookup at 2770–2772 has no ownership
filter (and its result is unused), and no existing-record check precedes
the insert. -/
def paymentSuccess (db : DB) (tokenEmail emailParam : String)
    (applicationId : Nat) (paymentIntentId : String) (now : Nat) : Resp × DB :=
  withRole db tokenEmail [.student] fun _u =>
    if emailParam != tokenEmail then (respForbiddenAccess, db)
    else match db.applications.find? (fun a => a.id == applicationId) with
    | none => (respNotFound "Application not found", db)
    | some application =>
      let db1 := paymentSteps db application applicationId now
      match db.users.find? (fun x => x.email == emailParam) with
      | none =>
        -- JS: `student._id` throws at the record literal, after steps 1–3
        -- already committed; caught → 500, no PaymentRecord
        (respServerError, db1)
      | some student =>
        let paymentRecord := paymentRecordOf student application applicationId paymentIntentId now
        (respOk "Payment successful and tutor approved",
         { db1 with payments := db1.payments ++ [paymentRecord] })

/-- JS truthiness of `!email` for an optional string parameter. -/
def jsNotStr : Option String → Bool
  | none => true
  | some s => s == ""

/-- JS strict equality between a Boolean and a String: `===` never
coerces, and a Boolean is never a String, so the comparison is always
`false`. -/
def jsStrictEqBoolString (_b : Bool) (_s : String) : Bool := false

/-- `GET /api/users/profile` (`src/index.js` 503–544): self-scoped read;
returns the id of the account read (ordering/projection elided). -/
def getUserProfile (db : DB) (tokenEmail emailParam : String) : Resp × Option Nat :=
  match verifyToken db tokenEmail with
  | .err r => (r, none)
  | .ok _u =>
    if emailParam != tokenEmail then (respUnauthorizedAccess, none)
    else match db.users.find? (fun u => u.email == emailParam) with
    | none => (respNotFound "User not found", none)
    | some user => (respOkPlain, some user.id)

/-- `GET /api/users/activity` (`src/index.js` 756–834). The guard is
`if (!email === decoded_email)`: `!email` is a Boolean, so the strict
comparison with the decoded email string is always `false` and the guard
never fires. The handler then reads the account named by the
caller-supplied `email` parameter and returns its recent applications
(tutor) or tuition posts (student); the embedding returns the ids of the
documents read (sorting and the `limit` cut elided). -/
def usersActivity (db : DB) (tokenEmail : String) (emailParam : Option String) :
    Resp × List Nat :=
  match verifyToken db tokenEmail with
  | .err r => (r, [])
  | .ok _u =>
    if jsStrictEqBoolString (jsNotStr emailParam) tokenEmail then
      (respUnauthorizedAccess, [])
    else match emailParam with
    | none => (respServerError, [])  -- lookup misses; JS: `user.role` throws → 500
    | some email =>
      match db.users.find? (fun u => u.email == email) with
      | none => (respServerError, [])  -- JS: `user.role` on null throws → 500
      | some user =>
        if user.role == .tutor then
          (respOkPlain, (db.applications.filter (fun a => a.tutorId == user.id)).map (·.id))
        else if user.role == .student then
          (respOkPlain, (db.tuitions.filter (fun t => t.studentId == user.id)).map (·.id))
        else (respOkPlain, [])

/-! ## Specification-side measures and invariants -/

/-- Number of applications against post `tid` with status `pending` or
`approved` — the count the spec requires the `applicants` field to track. -/
def activeCount (apps : List Application) (tid : Nat) : Nat :=
  apps.countP (fun a =>
    a.tuitionPostId == tid && (a.status == AppStatus.pending || a.status == AppStatus.approved))

/-- Every post's `applicants` counter equals its pending-or-approved
application count. -/
def counterInv (db : DB) : Prop :=
  ∀ t ∈ db.tuitions, t.applicants = (activeCount db.applications t.id : Int)

instance : DecidablePred counterInv := fun db =>
  List.decidableBAll _ db.tuitions

/-- The (post, tutor) key of an application. -/
def appPair (a : Application) : Nat × Nat := (a.tuitionPostId, a.tutorId)

/-- No two applications share a (post, tutor) pair. -/
def pairsNodup (apps : List Application) : Prop := (apps.map appPair).Nodup

/-- One transition of the system: any modelled operation run with any
request parameters. -/
inductive Step : DB → DB → Prop where
  | register (db : DB) (name email phone role uid : String) :
      Step db (registerUser db name email phone role uid).2
  | postTuition (db : DB) (te ep title subject : String) (now : Nat) :
      Step db (createTuition db te ep title subject now).2
  | editTuition (db : DB) (te ep : String) (tid : Nat)
      (title? subject? : Option String) (status? : Option TuitionStatus) (now : Nat) :
      Step db (updateTuition db te ep tid title? subject? status? now).2
  | removeTuition (db : DB) (te ep : String) (tid now : Nat) :
      Step db (deleteTuition db te ep tid now).2
  | approveTuition (db : DB) (te ep : String) (tid now : Nat) :
      Step db (adminApproveTuition db te ep tid now).2
  | rejectTuition (db : DB) (te ep : String) (tid now : Nat) :
      Step db (adminRejectTuition db te ep tid now).2
  | apply (db : DB) (te ep : String) (tid : Nat) (quals : String)
      (exper sal now : Nat) :
      Step db (createApplication db te ep tid quals exper sal now).2
  | editApplication (db : DB) (te ep : String) (aid : Nat) (quals : String)
      (exper sal now : Nat) :
      Step db (updateApplication db te ep aid quals exper sal now).2
  | withdrawApplication (db : DB) (te ep : String) (aid : Nat) :
      Step db (deleteApplication db te ep aid).2
  | decide (db : DB) (te ep : String) (aid : Nat) (action : String) (now : Nat) :
      Step db (applicationDecision db te ep aid action now).2
  | intent (db : DB) (te ep : String) (aid : Nat) :
      Step db (createPaymentIntent db te ep aid).2
  | pay (db : DB) (te ep : String) (aid : Nat) (pid : String) (now : Nat) :
      Step db (paymentSuccess db te ep aid pid now).2

/-- The empty deployment state. -/
def initDB : DB :=
  { users := [], tuitions := [], applications := [], payments := [], nextId := 0 }

/-- A state the system can reach from an empty deployment by running
modelled operations. -/
def Reachable (db : DB) : Prop := Relation.ReflTransGen Step initDB db

/-- Pointwise effect of transaction steps 1 and 3 on one application
(valid when application ids are duplicate-free). -/
def paymentAppMap (app : Application) (aid : Nat) (now : Nat)
    (a : Application) : Application :=
  if a.id = aid then { a with status := .approved, updatedAt := now }
  else if a.tuitionPostId = app.tuitionPostId ∧ a.status = .pending then
    { a with status := .rejected, updatedAt := now }
  else a

/-- Pointwise effect of transaction step 2 on one tuition post (valid
when post ids are duplicate-free). -/
def paymentTuitionMap (app : Application) (now : Nat)
    (t : TuitionPost) : TuitionPost :=
  if t.id = app.tuitionPostId then
    { t with tutorId := some app.tutorId, status := .completed, updatedAt := now }
  else t

/-! ## A concrete deployment used as test data -/

/-- Student owning the example post. -/
def accS : Account := { id := 1, email := "s@x", name := "S", role := .student, status := .active }

/-- A second student, not the owner of the example post. -/
def accB : Account := { id := 2, email := "b@x", name := "B", role := .student, status := .active }

/-- First tutor. -/
def accT1 : Account := { id := 3, email := "t1@x", name := "T1", role := .tutor, status := .active }

/-- Second tutor. -/
def accT2 : Account := { id := 4, email := "t2@x", name := "T2", role := .tutor, status := .active }

/-- An admin. -/
def accAd : Account := { id := 5, email := "a@x", name := "A", role := .admin, status := .active }

/-- An active post of student `accS` with two applicants. -/
def post10 : TuitionPost :=
  { id := 10, studentId := 1, title := "Math", subject := "Math", status := .active,
    tutorId := none, applicants := 2, deletedAt := none, posted := 0, updatedAt := 0 }

/-- Pending application of tutor `accT1` on `post10`. -/
def app20 : Application :=
  { id := 20, tuitionPostId := 10, tutorId := 3, qualifications := "q",
    experience := 1, expectedSalary := 100, status := .pending, appliedAt := 0, updatedAt := 0 }

/-- Pending application of tutor `accT2` on `post10`. -/
def app21 : Application :=
  { id := 21, tuitionPostId := 10, tutorId := 4, qualifications := "q",
    experience := 2, expectedSalary := 120, status := .pending, appliedAt := 0, updatedAt := 0 }

/-- The example deployment: five accounts, one active post, two pending
applications, no payments. -/
def exDb : DB :=
  { users := [accS, accB, accT1, accT2, accAd], tuitions := [post10],
    applications := [app20, app21], payments := [], nextId := 30 }

/-! ## List-store lemmas -/

theorem mem_updateFirst {p : α → Bool} {f : α → α} {l : List α} {y : α}
    (hy : y ∈ updateFirst p f l) : y ∈ l ∨ ∃ x, x ∈ l ∧ p x = true ∧ y = f x := by
  induction l with
  | nil => simp [updateFirst] at hy
  | cons a as ih =>
    by_cases h : p a
    · simp only [updateFirst, h, if_pos, List.mem_cons] at hy
      rcases hy with h1 | h1
      · exact Or.inr ⟨a, List.mem_cons_self a as, h, h1⟩
      · exact Or.inl (List.mem_cons_of_mem _ h1)
    · simp only [updateFirst, h, if_neg, Bool.false_eq_true, not_false_iff,
        List.mem_cons] at hy
      rcases hy with h1 | h1
      · exact Or.inl (by simp [h1])
      · rcases ih h1 with h2 | ⟨x, hx, hpx, hyx⟩
        · exact Or.inl (List.mem_cons_of_mem _ h2)
        · exact Or.inr ⟨x, List.mem_cons_of_mem _ hx, hpx, hyx⟩

theorem map_updateFirst {p : α → Bool} {f : α → α} (g : α → β)
    (hg : ∀ x, g (f x) = g x) (l : List α) :
    (updateFirst p f l).map g = l.map g := by
  induction l with
  | nil => rfl
  | cons a as ih =>
    by_cases h : p a
    · simp [updateFirst, h, hg]
    · simp [updateFirst, h, ih]

theorem deleteFirst_sublist (p : α → Bool) (l : List α) :
    List.Sublist (deleteFirst p l) l := by
  induction l with
  | nil => simp [deleteFirst]
  | cons a as ih =>
    by_cases h : p a
    · simp only [deleteFirst, h, if_pos]
      exact List.sublist_cons_self a as
    · simpa [deleteFirst, h] using ih.cons₂ a

theorem map_ite_key_eq_self {k : α → Nat} {i : Nat} {f : α → α} {l : List α}
    (h : ∀ x ∈ l, k x ≠ i) :
    l.map (fun x => if k x = i then f x else x) = l := by
  have h1 : ∀ x ∈ l, (if k x = i then f x else x) = x := by
    intro x hx
    simp [h x hx]
  exact (List.map_congr_left h1).trans (List.map_id' l)

/-- `updateOne` keyed by a duplicate-free id: equal to a pointwise map. -/
theorem updateFirst_keyed {k : α → Nat} {l : List α} (hnd : (l.map k).Nodup)
    (i : Nat) (f : α → α) :
    updateFirst (fun x => k x == i) f l
      = l.map (fun x => if k x = i then f x else x) := by
  induction l with
  | nil => rfl
  | cons a as ih =>
    simp only [List.map_cons, List.nodup_cons] at hnd
    by_cases h : k a = i
    · have hrest : ∀ x ∈ as, k x ≠ i := by
        intro x hx hxi
        exact hnd.1 (by rw [h, ← hxi]; exact List.mem_map_of_mem k hx)
      have : as.map (fun x => if k x = i then f x else x) = as :=
        map_ite_key_eq_self hrest
      simp [updateFirst, h, this]
    · simp [updateFirst, h, ih hnd.2]

/-- `deleteOne` of the unique element satisfying `q` is a permutation
complement. -/
theorem deleteFirst_perm {q : α → Bool} {x : α} {l : List α} (hx : x ∈ l)
    (hqx : q x = true) (huniq : ∀ y ∈ l, q y = true → y = x) :
    l.Perm (x :: deleteFirst q l) := by
  induction l with
  | nil => cases hx
  | cons a as ih =>
    by_cases h : q a
    · have ha : a = x := huniq a (List.mem_cons_self a as) h
      subst ha
      simp [deleteFirst, h]
    · have hxas : x ∈ as := by
        rcases List.mem_cons.mp hx with h1 | h1
        · exact absurd (h1 ▸ hqx) (by simp [h])
        · exact h1
      have hperm := ih hxas (fun y hy hqy => huniq y (List.mem_cons_of_mem _ hy) hqy)
      have h2 : List.Perm (a :: as) (a :: (x :: deleteFirst q as)) := hperm.cons a
      have h3 : List.Perm (a :: (x :: deleteFirst q as)) (x :: (a :: deleteFirst q as)) :=
        List.Perm.swap x a _
      have h4 : x :: (a :: deleteFirst q as) = x :: deleteFirst q (a :: as) := by
        simp [deleteFirst, h]
      exact h4 ▸ (h2.trans h3)

/-! ## Reducing the middleware chain -/

/-- A request whose verified email resolves to a non-blocked account of an
allowed role reaches its handler. -/
theorem withRole_ok {db : DB} {tokenEmail : String} {u : Account}
    {allowed : List Role} {k : Account → Resp × DB}
    (hu : db.users.find? (fun x => x.email == tokenEmail) = some u)
    (hblock : u.status ≠ .blocked) (hrole : allowed.contains u.role = true) :
    withRole db tokenEmail allowed k = k u := by
  have h2 : u.role ∈ allowed := by
    have := hrole
    simpa using this
  unfold withRole withAuth verifyToken
  rw [hu]
  simp [hblock, h2]

/-! ## Running the payment transaction -/

/-- Under the canonical hypotheses — the caller is a known, non-blocked
student account and the target application exists — `paymentSuccess`
reduces to `paymentSteps` plus one appended PaymentRecord. -/
theorem paymentSuccess_run {db : DB} {tokenEmail : String} {u : Account}
    {aid : Nat} {app : Application} (pid : String) (now : Nat)
    (hu : db.users.find? (fun x => x.email == tokenEmail) = some u)
    (hblock : u.status ≠ .blocked) (hrole : u.role = .student)
    (happ : db.applications.find? (fun a => a.id == aid) = some app) :
    paymentSuccess db tokenEmail tokenEmail aid pid now =
      (respOk "Payment successful and tutor approved",
       { paymentSteps db app aid now with
           payments := db.payments ++ [paymentRecordOf u app aid pid now] }) := by
  unfold paymentSuccess
  rw [withRole_ok hu hblock (by simp [hrole])]
  simp only [bne_self_eq_false, Bool.false_eq_true, if_false, happ, hu]
  rfl

/-! ## Characterizing the transaction's post-state -/

theorem paymentSteps_payments (db : DB) (app : Application) (aid now : Nat) :
    (paymentSteps db app aid now).payments = db.payments := rfl

theorem paymentSteps_users (db : DB) (app : Application) (aid now : Nat) :
    (paymentSteps db app aid now).users = db.users := rfl

/-- With duplicate-free application ids, steps 1 and 3 act pointwise. -/
theorem paymentSteps_applications {db : DB} (app : Application) (aid now : Nat)
    (hnd : (db.applications.map (fun a => a.id)).Nodup) :
    (paymentSteps db app aid now).applications
      = db.applications.map (paymentAppMap app aid now) := by
  unfold paymentSteps
  simp only
  rw [updateFirst_keyed (k := fun a : Application => a.id) hnd aid]
  rw [List.map_map]
  refine List.map_congr_left ?_
  intro a _
  by_cases h : a.id = aid
  · simp [paymentAppMap, Function.comp, h]
  · by_cases hp : a.tuitionPostId = app.tuitionPostId
      <;> by_cases hs : a.status = .pending
      <;> simp [paymentAppMap, Function.comp, h, hp, hs]

/-- With duplicate-free post ids, step 2 acts pointwise. -/
theorem paymentSteps_tuitions {db : DB} (app : Application) (aid now : Nat)
    (hnd : (db.tuitions.map (fun t => t.id)).Nodup) :
    (paymentSteps db app aid now).tuitions
      = db.tuitions.map (paymentTuitionMap app now) := by
  unfold paymentSteps
  simp only
  rw [updateFirst_keyed (k := fun t : TuitionPost => t.id) hnd app.tuitionPostId]
  refine List.map_congr_left ?_
  intro t _
  by_cases h : t.id = app.tuitionPostId <;> simp [paymentTuitionMap, h]

/-- `find?` by a key commutes with a key-preserving map. -/
theorem find?_key_map {l : List α} {F : α → α} {k : α → Nat}
    (hF : ∀ a, k (F a) = k a) (i : Nat) :
    (l.map F).find? (fun a => k a == i) = (l.find? (fun a => k a == i)).map F := by
  rw [List.find?_map]
  have hp : ((fun a => k a == i) ∘ F) = (fun a => k a == i) := by
    funext a
    simp [Function.comp, hF]
  rw [hp]

/-! ## Counting through single-point updates -/

/-- If `F` changes at most the single element `x` of a duplicate-free
list, `countP` changes only by `x`'s contribution. -/
theorem countP_pointwise_update {l : List α} [DecidableEq α] (hnd : l.Nodup)
    {x : α} (hx : x ∈ l) (F : α → α) (hF : ∀ y ∈ l, y ≠ x → F y = y)
    (p : α → Bool) :
    (l.map F).countP p + (if p x then 1 else 0)
      = l.countP p + (if p (F x) then 1 else 0) := by
  have hperm : l.Perm (x :: l.erase x) := List.perm_cons_erase hx
  have hl : l.countP p = (if p x then 1 else 0) + (l.erase x).countP p := by
    rw [hperm.countP_eq]
    rw [List.countP_cons]
    omega
  have hmap : (l.map F).countP p = l.countP (fun y => p (F y)) := by
    rw [List.countP_map]
    rfl
  have hF2 : l.countP (fun y => p (F y))
      = (if p (F x) then 1 else 0) + (l.erase x).countP p := by
    rw [hperm.countP_eq]
    rw [List.countP_cons]
    have : (l.erase x).countP (fun y => p (F y)) = (l.erase x).countP p := by
      refine List.countP_congr ?_
      intro y hy
      have hyx : y ≠ x ∧ y ∈ l := (List.Nodup.mem_erase_iff hnd).mp hy
      rw [hF y hyx.2 hyx.1]
    omega
  omega

/-! ## The (post, tutor) pair invariant -/

/-- A pair-preserving pointwise map leaves the pair multiset unchanged. -/
theorem map_appPair_of_preserving {l : List Application} {F : Application → Application}
    (hF : ∀ a, appPair (F a) = appPair a) :
    (l.map F).map appPair = l.map appPair := by
  rw [List.map_map]
  refine List.map_congr_left ?_
  intro a _
  exact hF a

theorem pairsNodup_of_map {l : List Application} {F : Application → Application}
    (hF : ∀ a, appPair (F a) = appPair a) (h : pairsNodup l) :
    pairsNodup (l.map F) := by
  unfold pairsNodup at *
  rw [map_appPair_of_preserving hF]
  exact h

theorem pairsNodup_updateFirst {l : List Application} {p : Application → Bool}
    {f : Application → Application} (hf : ∀ a, appPair (f a) = appPair a)
    (h : pairsNodup l) : pairsNodup (updateFirst p f l) := by
  unfold pairsNodup at *
  rw [map_updateFirst appPair hf]
  exact h

theorem pairsNodup_deleteFirst {l : List Application} {p : Application → Bool}
    (h : pairsNodup l) : pairsNodup (deleteFirst p l) := by
  unfold pairsNodup at *
  exact List.Nodup.sublist ((deleteFirst_sublist p l).map appPair) h

/-- In a list with duplicate-free keys, `find?` by key returns the member
carrying that key. -/
theorem find?_key_of_mem {l : List α} {k : α → Nat} {i : Nat}
    (hnd : (l.map k).Nodup) {x : α} (hx : x ∈ l) (hk : k x = i) :
    l.find? (fun y => k y == i) = some x := by
  induction l with
  | nil => cases hx
  | cons a as ih =>
    simp only [List.map_cons, List.nodup_cons] at hnd
    by_cases h : k a = i
    · have hax : a = x := by
        rcases List.mem_cons.mp hx with h1 | h1
        · exact h1.symm
        · exact absurd (by rw [h, ← hk]; exact List.mem_map_of_mem k h1) hnd.1
      subst hax
      have hb : (k a == i) = true := beq_iff_eq.mpr h
      rw [List.find?_cons, hb]
    · have hxas : x ∈ as := by
        rcases List.mem_cons.mp hx with h1 | h1
        · exact absurd (h1 ▸ hk) h
        · exact h1
      have hb : (k a == i) = false := beq_eq_false_iff_ne.mpr h
      rw [List.find?_cons, hb]
      exact ih hnd.2 hxas

/-- After deleting the unique key-holder, `find?` by that key misses. -/
theorem find?_key_deleteFirst_none {l : List α} {k : α → Nat}
    (hnd : (l.map k).Nodup) (i : Nat) :
    (deleteFirst (fun y => k y == i) l).find? (fun y => k y == i) = none := by
  induction l with
  | nil => rfl
  | cons a as ih =>
    simp only [List.map_cons, List.nodup_cons] at hnd
    by_cases h : k a = i
    · have hall : ∀ y ∈ as, ¬(k y == i) = true := by
        intro y hy hky
        exact hnd.1 (by rw [h, ← (beq_iff_eq.mp hky)]; exact List.mem_map_of_mem k hy)
      have hb : (k a == i) = true := beq_iff_eq.mpr h
      simp only [deleteFirst, hb, if_pos]
      exact List.find?_eq_none.mpr hall
    · have hb : (k a == i) = false := beq_eq_false_iff_ne.mpr h
      simp only [deleteFirst, hb, Bool.false_eq_true, if_false]
      rw [List.find?_cons, hb]
      exact ih hnd.2

/-! ## C7: the student's approve decision writes nothing -/

/-- C7 — the owning student's approve decision (PATCH
`/api/applications/:id/approve`) leaves the entire state unchanged on
every path, and no run of the decision operation (either action) ever
moves an application into `approved`: every application approved
afterwards was already present, untouched, before. The `approved`
transition is performed only by the payment-confirmation operation. -/
theorem C7_approve_frame (db : DB) (tokenEmail emailParam : String)
    (aid now : Nat) :
    (applicationDecision db tokenEmail emailParam aid "approve" now).2 = db ∧
    ∀ (action : String),
      ∀ a ∈ (applicationDecision db tokenEmail emailParam aid action now).2.applications,
        a.status = .approved → a ∈ db.applications := by
  constructor
  · simp only [applicationDecision, withRole, withAuth, verifyToken]
    repeat' split <;> try rfl
  · intro action a ha hstat
    simp only [applicationDecision, withRole, withAuth, verifyToken] at ha
    repeat' split at ha
    all_goals first
      | exact ha
      | (rcases mem_updateFirst ha with h | ⟨x, _hx, _hpx, rfl⟩
         · exact h
         · simp at hstat)

/-- Witness: C7 at the example deployment. -/
theorem C7_witness :
    (applicationDecision exDb "s@x" "s@x" 20 "approve" 1).2 = exDb :=
  (C7_approve_frame exDb "s@x" "s@x" 20 1).1

/-! ## C9: non-pending applications are immutable to the tutor -/

/-- C9 — once an application is no longer `pending`, the owning tutor's
edit (PUT `/api/applications/:id`) and withdrawal (DELETE
`/api/applications/:id`) are both refused with the source's conflict
response ("Cannot update/delete application after it has been reviewed",
HTTP 400) and the state — in particular the application and its post's
`applicants` counter — is unchanged. -/
theorem C9_nonpending_mutation_conflict
    {db : DB} {tokenEmail : String} {u : Account} {aid : Nat} {app : Application}
    (quals : String) (exper sal now : Nat)
    (hu : db.users.find? (fun x => x.email == tokenEmail) = some u)
    (hblock : u.status ≠ .blocked) (hrole : u.role = .tutor)
    (happ : db.applications.find? (fun a => a.id == aid && a.tutorId == u.id) = some app)
    (hstat : app.status ≠ .pending) :
    updateApplication db tokenEmail tokenEmail aid quals exper sal now
      = (respBadRequest "Cannot update application after it has been reviewed", db) ∧
    deleteApplication db tokenEmail tokenEmail aid
      = (respBadRequest "Cannot delete application after it has been reviewed", db) := by
  have hb : (app.status != AppStatus.pending) = true := by simp [hstat]
  constructor
  · unfold updateApplication
    rw [withRole_ok hu hblock (by simp [hrole])]
    simp only [bne_self_eq_false, Bool.false_eq_true, if_false, hu, happ, hb, if_pos]
  · unfold deleteApplication
    rw [withRole_ok hu hblock (by simp [hrole])]
    simp only [bne_self_eq_false, Bool.false_eq_true, if_false, hu, happ, hb, if_pos]

/-- Witness: C9 on an already-approved application of tutor `accT1`. -/
theorem C9_witness :
    updateApplication
        { exDb with applications := [{ app20 with status := AppStatus.approved }, app21] }
        "t1@x" "t1@x" 20 "qq" 3 150 6
      = (respBadRequest "Cannot update application after it has been reviewed",
         { exDb with applications := [{ app20 with status := AppStatus.approved }, app21] }) :=
  (@C9_nonpending_mutation_conflict
    { exDb with applications := [{ app20 with status := AppStatus.approved }, app21] }
    "t1@x" accT1 20 { app20 with status := AppStatus.approved }
    "qq" 3 150 6 (by decide) (by decide) (by decide) (by decide) (by decide)).1

/-! ## C4: the payment-confirmation route skips the ownership check -/

/-- C4 — the code violates the claim: `POST /api/payment/success` looks
the tuition up without an ownership filter, so a student who does not own
the post (here `accB`, while `post10` belongs to `accS`) is not refused:
the call succeeds, commits the full assignment (post `completed`,
`tutorId` set) and records a PaymentRecord naming the non-owner as payer.
(`POST /api/create-payment-intent` does perform this check and returns
403.) -/
theorem C4_ownership_bug :
    post10.studentId ≠ accB.id ∧
    (paymentSuccess exDb "b@x" "b@x" 20 "pi" 1).1.success = true ∧
    (paymentSuccess exDb "b@x" "b@x" 20 "pi" 1).2.tuitions
      = [{ post10 with status := .completed, tutorId := some accT1.id, updatedAt := 1 }] ∧
    (paymentSuccess exDb "b@x" "b@x" 20 "pi" 1).2.payments
      = [paymentRecordOf accB app20 20 "pi" 1] := by
  exact ⟨by decide, rfl, rfl, rfl⟩

/-! ## C5: the activity route's identity guard never fires -/

/-- C5 — the code violates the claim: in `GET /api/users/activity` the
guard is `if (!email === decoded_email)`, a strict comparison of a
Boolean with a String, which is always false; so a caller (`accB`) who
supplies another identity's email (`accS`) is not refused with
`UNAUTHORIZED_ACCESS` but served that other identity's activity (the ids
of `accS`'s tuition posts). -/
theorem C5_identity_guard_bug :
    accB.email ≠ accS.email ∧
    usersActivity exDb accB.email (some accS.email) = (respOkPlain, [post10.id]) ∧
    respOkPlain ≠ respUnauthorizedAccess := by
  exact ⟨by decide, rfl, by decide⟩

/-! ## C10: deleting a tuition post -/

/-- C10 — DELETE `/api/tuitions/:id` by the owning student: refused with
the source's conflict response (HTTP 400, "Cannot delete an ongoing or
completed tuition") and no state change while the post is in the
payment-locked set {`ongoing`, `completed`}; otherwise soft-deleted
(status `deleted`, `deletedAt` stamped) when at least one application
references the post, and physically removed when none does. -/
theorem C10_delete_tuition
    {db : DB} {tokenEmail : String} {u : Account} {tid : Nat} {t : TuitionPost}
    (now : Nat)
    (hu : db.users.find? (fun x => x.email == tokenEmail) = some u)
    (hblock : u.status ≠ .blocked) (hrole : u.role = .student)
    (ht : db.tuitions.find? (fun x => x.id == tid && x.studentId == u.id) = some t)
    (hndT : (db.tuitions.map (fun x => x.id)).Nodup) :
    (t.status = .ongoing ∨ t.status = .completed →
      deleteTuition db tokenEmail tokenEmail tid now
        = (respBadRequest "Cannot delete an ongoing or completed tuition", db)) ∧
    (t.status ≠ .ongoing → t.status ≠ .completed →
      (∃ a ∈ db.applications, a.tuitionPostId = tid) →
      (deleteTuition db tokenEmail tokenEmail tid now).1
          = respOk "Tuition deleted successfully" ∧
      (deleteTuition db tokenEmail tokenEmail tid now).2.tuitions.find?
          (fun x => x.id == tid)
        = some { t with status := .deleted, deletedAt := some now, updatedAt := now } ∧
      (deleteTuition db tokenEmail tokenEmail tid now).2.applications
          = db.applications) ∧
    (t.status ≠ .ongoing → t.status ≠ .completed →
      (∀ a ∈ db.applications, a.tuitionPostId ≠ tid) →
      (deleteTuition db tokenEmail tokenEmail tid now).1
          = respOk "Tuition deleted successfully" ∧
      (deleteTuition db tokenEmail tokenEmail tid now).2.tuitions.find?
          (fun x => x.id == tid) = none) := by
  have htmem : t ∈ db.tuitions := List.mem_of_find?_eq_some ht
  have htid : t.id = tid := by
    have := List.find?_some ht
    simp only [Bool.and_eq_true, beq_iff_eq] at this
    exact this.1
  refine ⟨?_, ?_, ?_⟩
  · intro hstat
    have hb : (t.status == TuitionStatus.ongoing
        || t.status == TuitionStatus.completed) = true := by
      rcases hstat with h | h <;> simp [h]
    unfold deleteTuition
    rw [withRole_ok hu hblock (by simp [hrole])]
    simp only [bne_self_eq_false, Bool.false_eq_true, if_false, hu, ht, hb, if_pos]
  · intro h1 h2 hex
    have hb : (t.status == TuitionStatus.ongoing
        || t.status == TuitionStatus.completed) = false := by
      simp [h1, h2]
    have hpos : 0 < (db.applications.filter (fun a => a.tuitionPostId == tid)).length := by
      rcases hex with ⟨a, ha, haid⟩
      refine List.length_pos.mpr ?_
      intro hnil
      have : a ∈ db.applications.filter (fun a => a.tuitionPostId == tid) :=
        List.mem_filter.mpr ⟨ha, by simp [haid]⟩
      rw [hnil] at this
      cases this
    have heq : deleteTuition db tokenEmail tokenEmail tid now
        = (respOk "Tuition deleted successfully",
           { db with tuitions := updateFirst (fun x => x.id == tid) (fun x => { x with status := .deleted, deletedAt := some now, updatedAt := now }) db.tuitions }) := by
      unfold deleteTuition
      rw [withRole_ok hu hblock (by simp [hrole])]
      simp only [bne_self_eq_false, Bool.false_eq_true, if_false, hu, ht, hb, gt_iff_lt,
        hpos, if_pos, if_true]
    rw [heq]
    refine ⟨rfl, ?_, rfl⟩
    simp only
    rw [updateFirst_keyed (k := fun x : TuitionPost => x.id) hndT tid]
    rw [find?_key_map (fun x => by by_cases h : x.id = tid <;> simp [h]) tid]
    rw [find?_key_of_mem hndT htmem htid]
    simp [htid]
  · intro h1 h2 hnone
    have hb : (t.status == TuitionStatus.ongoing
        || t.status == TuitionStatus.completed) = false := by
      simp [h1, h2]
    have hnil : (db.applications.filter (fun a => a.tuitionPostId == tid)).length = 0 := by
      rw [List.length_eq_zero]
      refine List.filter_eq_nil_iff.mpr ?_
      intro a ha
      simp [hnone a ha]
    have heq : deleteTuition db tokenEmail tokenEmail tid now
        = (respOk "Tuition deleted successfully",
           { db with tuitions := deleteFirst (fun x => x.id == tid) db.tuitions }) := by
      unfold deleteTuition
      rw [withRole_ok hu hblock (by simp [hrole])]
      simp only [bne_self_eq_false, Bool.false_eq_true, if_false, hu, ht, hb, gt_iff_lt,
        hnil, Nat.lt_irrefl, if_false]
    rw [heq]
    exact ⟨rfl, find?_key_deleteFirst_none hndT tid⟩

/-- Witness: C10's conflict case on a `completed` (payment-locked)
example post. -/
theorem C10_witness :
    deleteTuition { exDb with tuitions := [{ post10 with status := TuitionStatus.completed }] }
        "s@x" "s@x" 10 3
      = (respBadRequest "Cannot delete an ongoing or completed tuition",
         { exDb with tuitions := [{ post10 with status := TuitionStatus.completed }] }) :=
  ((@C10_delete_tuition
      { exDb with tuitions := [{ post10 with status := TuitionStatus.completed }] }
      "s@x" accS 10 { post10 with status := TuitionStatus.completed }
      3 (by decide) (by decide) (by decide) (by decide) (by decide)).1)
    (Or.inr rfl)

/-! ## C6: the owning student's edit CAN change the post's status -/

/-- C6 counterexample — the code violates "PUT `/api/tuitions/:id` never
changes the post's status": the handler writes
`status: status || existingTuition.status` from the request body, so the
owning student turns their own `pending` post `active` with one edit
request, bypassing the admin decision. -/
theorem C6_counterexample :
    ({ exDb with tuitions := [{ post10 with status := TuitionStatus.pending }] } : DB).tuitions.map
        (fun t => t.status) = [TuitionStatus.pending] ∧
    (updateTuition { exDb with tuitions := [{ post10 with status := TuitionStatus.pending }] }
        "s@x" "s@x" 10 none none (some TuitionStatus.active) 3).1.success = true ∧
    (updateTuition { exDb with tuitions := [{ post10 with status := TuitionStatus.pending }] }
        "s@x" "s@x" 10 none none (some TuitionStatus.active) 3).2.tuitions.map
        (fun t => t.status) = [TuitionStatus.active] :=
  ⟨rfl, rfl, rfl⟩

/-- C6 (amended) — the owning student's edit sets the post's status to
the caller-supplied value when one is supplied and preserves it when the
body carries none (`status || existingTuition.status`); posts other than
the target are untouched. Admin approve/reject and the payment
transaction remain the other status writers. -/
theorem C6_status_edit_amended
    {db : DB} {tokenEmail : String} {u : Account} {tid : Nat} {t : TuitionPost}
    (title? subject? : Option String) (status? : Option TuitionStatus) (now : Nat)
    (hu : db.users.find? (fun x => x.email == tokenEmail) = some u)
    (hblock : u.status ≠ .blocked) (hrole : u.role = .student)
    (ht : db.tuitions.find? (fun x => x.id == tid && x.studentId == u.id) = some t)
    (hndT : (db.tuitions.map (fun x => x.id)).Nodup) :
    (updateTuition db tokenEmail tokenEmail tid title? subject? status? now).2.tuitions.find?
        (fun x => x.id == tid)
      = some { t with title := title?.getD t.title, subject := subject?.getD t.subject, status := status?.getD t.status, updatedAt := now } ∧
    ∀ x ∈ (updateTuition db tokenEmail tokenEmail tid title? subject? status? now).2.tuitions,
      x.id ≠ tid → x ∈ db.tuitions := by
  have htmem := List.mem_of_find?_eq_some ht
  have htid : t.id = tid := by
    have := List.find?_some ht
    simp only [Bool.and_eq_true, beq_iff_eq] at this
    exact this.1
  have heq : updateTuition db tokenEmail tokenEmail tid title? subject? status? now
      = (respOk "Tuition updated successfully",
         { db with tuitions := updateFirst (fun x => x.id == tid) (fun x => { x with title := title?.getD x.title, subject := subject?.getD x.subject, status := status?.getD t.status, updatedAt := now }) db.tuitions }) := by
    unfold updateTuition
    rw [withRole_ok hu hblock (by simp [hrole])]
    simp only [bne_self_eq_false, Bool.false_eq_true, if_false, hu, ht]
  rw [heq]
  constructor
  · simp only
    rw [updateFirst_keyed (k := fun x : TuitionPost => x.id) hndT tid]
    rw [find?_key_map (fun x => by by_cases h : x.id = tid <;> simp [h]) tid]
    rw [find?_key_of_mem hndT htmem htid]
    simp [htid]
  · intro x hx hxid
    rcases mem_updateFirst hx with h | ⟨y, _hy, hpy, rfl⟩
    · exact h
    · have h1 : y.id = tid := by simpa using hpy
      simp [h1] at hxid

/-- Witness: C6's amended statement on a `pending` example post edited
with `status: "active"`. -/
theorem C6_witness :
    (updateTuition { exDb with tuitions := [{ post10 with status := TuitionStatus.pending }] }
        "s@x" "s@x" 10 none none (some TuitionStatus.active) 3).2.tuitions.find?
        (fun x => x.id == 10)
      = some { post10 with status := TuitionStatus.active, updatedAt := 3 } :=
  (@C6_status_edit_amended
    { exDb with tuitions := [{ post10 with status := TuitionStatus.pending }] }
    "s@x" accS 10 { post10 with status := TuitionStatus.pending }
    none none (some TuitionStatus.active) 3
    (by decide) (by decide) (by decide) (by decide) (by decide)).1

theorem paymentAppMap_id (app : Application) (aid now : Nat) (b : Application) :
    (paymentAppMap app aid now b).id = b.id := by
  unfold paymentAppMap
  by_cases h : b.id = aid
  · simp [h]
  · by_cases h2 : b.tuitionPostId = app.tuitionPostId ∧ b.status = .pending
      <;> simp [h, h2]

theorem paymentTuitionMap_id (app : Application) (now : Nat) (t : TuitionPost) :
    (paymentTuitionMap app now t).id = t.id := by
  unfold paymentTuitionMap
  by_cases h : t.id = app.tuitionPostId <;> simp [h]

/-! ## C1: one completed payment-assignment run -/

/-- C1 counterexample — the claim as stated fails on the code: the
operation has no duplicate guard, so after a second completed run of
`POST /api/payment/success` on the same application two PaymentRecords
exist for the (post, application) pair, not exactly one. -/
theorem C1_counterexample :
    (paymentSuccess (paymentSuccess exDb "s@x" "s@x" 20 "pi" 1).2 "s@x" "s@x" 20 "pi" 2).1.success
        = true ∧
    ((paymentSuccess (paymentSuccess exDb "s@x" "s@x" 20 "pi" 1).2 "s@x" "s@x" 20 "pi" 2).2.payments.filter
        (fun p => p.tuitionId == 10 && p.applicationId == 20)).length = 2 :=
  ⟨rfl, rfl⟩

/-- C1 (amended) — a completed run of the payment-assignment operation
on an application of a post, *started from a state holding no
PaymentRecord for that (post, application) pair*, ends with the target
application `approved`, the post carrying the application's tutor id in
the `completed` (committed/assigned) state, every other application on
the post that was `pending` beforehand `rejected`, and exactly one
PaymentRecord for the pair, whose amount is the application's
`expectedSalary`. (The precondition is forced by the counterexample: a
run repeated on the same application appends a second record.) -/
theorem C1_payment_assignment
    {db : DB} {tokenEmail : String} {u : Account} {aid : Nat} {app : Application}
    (pid : String) (now : Nat)
    (hu : db.users.find? (fun x => x.email == tokenEmail) = some u)
    (hblock : u.status ≠ .blocked) (hrole : u.role = .student)
    (happ : db.applications.find? (fun a => a.id == aid) = some app)
    (hndA : (db.applications.map (fun a => a.id)).Nodup)
    (hndT : (db.tuitions.map (fun x => x.id)).Nodup)
    (hnorec : ∀ p ∈ db.payments,
      ¬(p.tuitionId = app.tuitionPostId ∧ p.applicationId = aid)) :
    (paymentSuccess db tokenEmail tokenEmail aid pid now).1.success = true ∧
    (∀ a ∈ (paymentSuccess db tokenEmail tokenEmail aid pid now).2.applications,
      a.id = aid → a.status = .approved) ∧
    (∀ t ∈ (paymentSuccess db tokenEmail tokenEmail aid pid now).2.tuitions,
      t.id = app.tuitionPostId → t.tutorId = some app.tutorId ∧ t.status = .completed) ∧
    (∀ a ∈ db.applications, a.tuitionPostId = app.tuitionPostId → a.id ≠ aid →
      a.status = .pending →
      ({ a with status := AppStatus.rejected, updatedAt := now } : Application)
        ∈ (paymentSuccess db tokenEmail tokenEmail aid pid now).2.applications) ∧
    ((paymentSuccess db tokenEmail tokenEmail aid pid now).2.payments.filter
        (fun p => p.tuitionId == app.tuitionPostId && p.applicationId == aid))
      = [paymentRecordOf u app aid pid now] ∧
    (paymentRecordOf u app aid pid now).amount = app.expectedSalary := by
  have hrun := paymentSuccess_run pid now hu hblock hrole happ
  have h1 : (paymentSuccess db tokenEmail tokenEmail aid pid now).1
      = respOk "Payment successful and tutor approved" := by rw [hrun]
  have h2 : (paymentSuccess db tokenEmail tokenEmail aid pid now).2.applications
      = db.applications.map (paymentAppMap app aid now) := by
    rw [hrun]
    exact paymentSteps_applications app aid now hndA
  have h3 : (paymentSuccess db tokenEmail tokenEmail aid pid now).2.tuitions
      = db.tuitions.map (paymentTuitionMap app now) := by
    rw [hrun]
    exact paymentSteps_tuitions app aid now hndT
  have h4 : (paymentSuccess db tokenEmail tokenEmail aid pid now).2.payments
      = db.payments ++ [paymentRecordOf u app aid pid now] := by rw [hrun]
  refine ⟨by rw [h1]; rfl, ?_, ?_, ?_, ?_, rfl⟩
  · intro a ha haid
    rw [h2] at ha
    rcases List.mem_map.mp ha with ⟨b, _hb, rfl⟩
    have hbid : b.id = aid := by rw [← paymentAppMap_id app aid now b]; exact haid
    simp [paymentAppMap, hbid]
  · intro t ht htid
    rw [h3] at ht
    rcases List.mem_map.mp ht with ⟨s, _hs, rfl⟩
    have hsid : s.id = app.tuitionPostId := by
      rw [← paymentTuitionMap_id app now s]
      exact htid
    constructor <;> simp [paymentTuitionMap, hsid]
  · intro a ha hpost hne hpend
    rw [h2]
    refine List.mem_map.mpr ⟨a, ha, ?_⟩
    simp [paymentAppMap, hne, hpost, hpend]
  · rw [h4, List.filter_append]
    have hl : db.payments.filter
        (fun p => p.tuitionId == app.tuitionPostId && p.applicationId == aid) = [] := by
      refine List.filter_eq_nil_iff.mpr ?_
      intro p hp
      have := hnorec p hp
      simp only [Bool.and_eq_true, beq_iff_eq]
      intro hcontra
      exact this ⟨hcontra.1, hcontra.2⟩
    rw [hl]
    simp [paymentRecordOf]

/-- Witness: C1's amended statement on the example deployment. -/
theorem C1_witness :
    ((paymentSuccess exDb "s@x" "s@x" 20 "pi" 1).2.payments.filter
        (fun p => p.tuitionId == app20.tuitionPostId && p.applicationId == 20))
      = [paymentRecordOf accS app20 20 "pi" 1] :=
  (@C1_payment_assignment exDb "s@x" accS 20 app20 "pi" 1
    (by decide) (by decide) (by decide) (by decide) (by decide) (by decide)
    (by decide)).2.2.2.2.1

theorem paymentAppMap_post (app : Application) (aid now : Nat) (b : Application) :
    (paymentAppMap app aid now b).tuitionPostId = b.tuitionPostId := by
  unfold paymentAppMap
  by_cases h : b.id = aid
  · simp [h]
  · by_cases h2 : b.tuitionPostId = app.tuitionPostId ∧ b.status = .pending
      <;> simp [h, h2]

/-! ## C2: duplicate delivery of the same confirmation -/

/-- C2 counterexample — the claim fails on the code: there is no
idempotency check, so delivering the same (application id, transaction
reference) confirmation twice leaves two PaymentRecords, and the second
call also rewrites the application store (it refreshes `updatedAt`),
so the store is not left unchanged. -/
theorem C2_counterexample :
    (paymentSuccess (paymentSuccess exDb "s@x" "s@x" 20 "pi" 1).2
        "s@x" "s@x" 20 "pi" 2).2.payments.length = 2 ∧
    (paymentSuccess (paymentSuccess exDb "s@x" "s@x" 20 "pi" 1).2
        "s@x" "s@x" 20 "pi" 2).2.applications
      ≠ (paymentSuccess exDb "s@x" "s@x" 20 "pi" 1).2.applications := by
  exact ⟨rfl, by decide⟩

/-- C2 (amended) — a duplicate confirmation for the same application and
transaction reference appends a *second* PaymentRecord (no idempotency
guard exists); it does not re-reject already-decided applications —
every non-target application that is no longer `pending` is carried over
untouched — and it leaves every application's status, and every post's
status / assigned tutor / applicants counter, unchanged (only
`updatedAt` timestamps of the target application and its post are
rewritten). -/
theorem C2_idempotence_amended
    {db : DB} {tokenEmail : String} {u : Account} {aid : Nat} {app : Application}
    (pid : String) (now1 now2 : Nat)
    (hu : db.users.find? (fun x => x.email == tokenEmail) = some u)
    (hblock : u.status ≠ .blocked) (hrole : u.role = .student)
    (happ : db.applications.find? (fun a => a.id == aid) = some app)
    (hndA : (db.applications.map (fun a => a.id)).Nodup)
    (hndT : (db.tuitions.map (fun x => x.id)).Nodup) :
    (paymentSuccess (paymentSuccess db tokenEmail tokenEmail aid pid now1).2
        tokenEmail tokenEmail aid pid now2).2.payments.length
      = (paymentSuccess db tokenEmail tokenEmail aid pid now1).2.payments.length + 1 ∧
    (∀ a ∈ (paymentSuccess db tokenEmail tokenEmail aid pid now1).2.applications,
      a.id ≠ aid → a.status ≠ .pending →
      a ∈ (paymentSuccess (paymentSuccess db tokenEmail tokenEmail aid pid now1).2
        tokenEmail tokenEmail aid pid now2).2.applications) ∧
    (paymentSuccess (paymentSuccess db tokenEmail tokenEmail aid pid now1).2
        tokenEmail tokenEmail aid pid now2).2.applications.map (fun a => (a.id, a.status))
      = (paymentSuccess db tokenEmail tokenEmail aid pid now1).2.applications.map
          (fun a => (a.id, a.status)) ∧
    (paymentSuccess (paymentSuccess db tokenEmail tokenEmail aid pid now1).2
        tokenEmail tokenEmail aid pid now2).2.tuitions.map
          (fun t => (t.id, t.status, t.tutorId, t.applicants))
      = (paymentSuccess db tokenEmail tokenEmail aid pid now1).2.tuitions.map
          (fun t => (t.id, t.status, t.tutorId, t.applicants)) := by
  have happid : app.id = aid := by simpa using List.find?_some happ
  have hrun1 := paymentSuccess_run pid now1 hu hblock hrole happ
  have hA1 : (paymentSuccess db tokenEmail tokenEmail aid pid now1).2.applications
      = db.applications.map (paymentAppMap app aid now1) := by
    rw [hrun1]
    exact paymentSteps_applications app aid now1 hndA
  have hT1 : (paymentSuccess db tokenEmail tokenEmail aid pid now1).2.tuitions
      = db.tuitions.map (paymentTuitionMap app now1) := by
    rw [hrun1]
    exact paymentSteps_tuitions app aid now1 hndT
  have hu1 : (paymentSuccess db tokenEmail tokenEmail aid pid now1).2.users.find?
      (fun x => x.email == tokenEmail) = some u := by
    rw [hrun1]
    exact hu
  have happ1 : (paymentSuccess db tokenEmail tokenEmail aid pid now1).2.applications.find?
      (fun a => a.id == aid)
      = some { app with status := AppStatus.approved, updatedAt := now1 } := by
    rw [hA1, find?_key_map (paymentAppMap_id app aid now1) aid, happ]
    simp [paymentAppMap, happid]
  have hndA1 : ((paymentSuccess db tokenEmail tokenEmail aid pid now1).2.applications.map
      (fun a => a.id)).Nodup := by
    rw [hA1, List.map_map]
    have hcomp : ((fun a : Application => a.id) ∘ paymentAppMap app aid now1)
        = (fun a : Application => a.id) := by
      funext b
      exact paymentAppMap_id app aid now1 b
    rw [hcomp]
    exact hndA
  have hndT1 : ((paymentSuccess db tokenEmail tokenEmail aid pid now1).2.tuitions.map
      (fun x => x.id)).Nodup := by
    rw [hT1, List.map_map]
    have hcomp : ((fun t : TuitionPost => t.id) ∘ paymentTuitionMap app now1)
        = (fun t : TuitionPost => t.id) := by
      funext t
      exact paymentTuitionMap_id app now1 t
    rw [hcomp]
    exact hndT
  have hrun2 := paymentSuccess_run pid now2 hu1 hblock hrole happ1
  have hA2 : (paymentSuccess (paymentSuccess db tokenEmail tokenEmail aid pid now1).2
        tokenEmail tokenEmail aid pid now2).2.applications
      = (paymentSuccess db tokenEmail tokenEmail aid pid now1).2.applications.map
          (paymentAppMap { app with status := AppStatus.approved, updatedAt := now1 } aid now2) := by
    rw [hrun2]
    exact paymentSteps_applications _ aid now2 hndA1
  have hT2 : (paymentSuccess (paymentSuccess db tokenEmail tokenEmail aid pid now1).2
        tokenEmail tokenEmail aid pid now2).2.tuitions
      = (paymentSuccess db tokenEmail tokenEmail aid pid now1).2.tuitions.map
          (paymentTuitionMap { app with status := AppStatus.approved, updatedAt := now1 } now2) := by
    rw [hrun2]
    exact paymentSteps_tuitions _ aid now2 hndT1
  have hP2 : (paymentSuccess (paymentSuccess db tokenEmail tokenEmail aid pid now1).2
        tokenEmail tokenEmail aid pid now2).2.payments
      = (paymentSuccess db tokenEmail tokenEmail aid pid now1).2.payments
          ++ [paymentRecordOf u { app with status := AppStatus.approved, updatedAt := now1 }
                aid pid now2] := by
    rw [hrun2, hrun1]
  have htarget1 : ∀ a ∈ (paymentSuccess db tokenEmail tokenEmail aid pid now1).2.applications,
      a.id = aid → a.status = .approved := by
    intro a ha haid
    rw [hA1] at ha
    rcases List.mem_map.mp ha with ⟨b, _hb, rfl⟩
    have hbid : b.id = aid := by rw [← paymentAppMap_id app aid now1 b]; exact haid
    simp [paymentAppMap, hbid]
  have hnopending1 : ∀ a ∈ (paymentSuccess db tokenEmail tokenEmail aid pid now1).2.applications,
      a.tuitionPostId = app.tuitionPostId → a.id ≠ aid → a.status ≠ .pending := by
    intro a ha hpost hne
    rw [hA1] at ha
    rcases List.mem_map.mp ha with ⟨b, _hb, rfl⟩
    have hbne : b.id ≠ aid := by
      intro hbid
      exact hne (by rw [paymentAppMap_id]; exact hbid)
    by_cases hbp : b.tuitionPostId = app.tuitionPostId ∧ b.status = AppStatus.pending
    · intro hcon
      have : (paymentAppMap app aid now1 b).status = AppStatus.rejected := by
        simp [paymentAppMap, hbne, hbp.1, hbp.2]
      rw [this] at hcon
      cases hcon
    · have hFb : paymentAppMap app aid now1 b = b := by
        simp [paymentAppMap, hbne, hbp]
      rw [hFb] at hpost ⊢
      intro hcon
      exact hbp ⟨hpost, hcon⟩
  have hassigned1 : ∀ t ∈ (paymentSuccess db tokenEmail tokenEmail aid pid now1).2.tuitions,
      t.id = app.tuitionPostId → t.status = .completed ∧ t.tutorId = some app.tutorId := by
    intro t ht htid
    rw [hT1] at ht
    rcases List.mem_map.mp ht with ⟨s, _hs, rfl⟩
    have hsid : s.id = app.tuitionPostId := by
      rw [← paymentTuitionMap_id app now1 s]
      exact htid
    constructor <;> simp [paymentTuitionMap, hsid]
  refine ⟨?_, ?_, ?_, ?_⟩
  · rw [hP2, List.length_append]
    rfl
  · intro a ha hne hstat
    rw [hA2]
    refine List.mem_map.mpr ⟨a, ha, ?_⟩
    have hnp : ¬(a.tuitionPostId
        = ({ app with status := AppStatus.approved, updatedAt := now1 } : Application).tuitionPostId
        ∧ a.status = AppStatus.pending) := fun h => hstat h.2
    simp [paymentAppMap, hne, hnp]
  · rw [hA2, List.map_map]
    refine List.map_congr_left ?_
    intro a ha
    by_cases hid : a.id = aid
    · have hap := htarget1 a ha hid
      simp [Function.comp, paymentAppMap, hid, hap]
    · by_cases hp : a.tuitionPostId = app.tuitionPostId ∧ a.status = AppStatus.pending
      · exact absurd hp.2 (hnopending1 a ha hp.1 hid)
      · simp only [Function.comp]
        have hFa : paymentAppMap { app with status := AppStatus.approved, updatedAt := now1 }
            aid now2 a = a := by
          simp [paymentAppMap, hid, hp]
        rw [hFa]
  · rw [hT2, List.map_map]
    refine List.map_congr_left ?_
    intro t ht
    by_cases hid : t.id = app.tuitionPostId
    · have h5 := hassigned1 t ht hid
      simp [Function.comp, paymentTuitionMap, hid, h5.1, h5.2]
    · simp only [Function.comp]
      have hGt : paymentTuitionMap { app with status := AppStatus.approved, updatedAt := now1 }
          now2 t = t := by
        simp [paymentTuitionMap, hid]
      rw [hGt]

/-- Witness: C2's amended statement on the example deployment. -/
theorem C2_witness :
    (paymentSuccess (paymentSuccess exDb "s@x" "s@x" 20 "pi" 1).2
        "s@x" "s@x" 20 "pi" 2).2.payments.length
      = (paymentSuccess exDb "s@x" "s@x" 20 "pi" 1).2.payments.length + 1 :=
  (@C2_idempotence_amended exDb "s@x" accS 20 app20 "pi" 1 2
    (by decide) (by decide) (by decide) (by decide) (by decide) (by decide)).1

theorem paymentTuitionMap_applicants (app : Application) (now : Nat) (t : TuitionPost) :
    (paymentTuitionMap app now t).applicants = t.applicants := by
  unfold paymentTuitionMap
  by_cases h : t.id = app.tuitionPostId <;> simp [h]

/-! ## C3: counting pending-or-approved applications -/

/-- Inserting a fresh `pending` application while bumping the post's
counter preserves the counter invariant. -/
theorem counterInv_create_aux {apps : List Application} {tuits : List TuitionPost}
    {newA : Application} (tid : Nat) (hpost : newA.tuitionPostId = tid)
    (hndT : (tuits.map (fun t => t.id)).Nodup)
    (hinv : ∀ t ∈ tuits, t.applicants = (activeCount apps t.id : Int))
    (hnew : newA.status = .pending) :
    ∀ t ∈ updateFirst (fun t => t.id == tid)
        (fun t => { t with applicants := t.applicants + 1 }) tuits,
      t.applicants = (activeCount (apps ++ [newA]) t.id : Int) := by
  intro t' ht'
  rw [updateFirst_keyed (k := fun t : TuitionPost => t.id) hndT tid] at ht'
  rcases List.mem_map.mp ht' with ⟨t, ht, rfl⟩
  have hc := hinv t ht
  by_cases hidt : t.id = tid
  · rw [if_pos hidt]
    show t.applicants + 1 = (activeCount (apps ++ [newA]) t.id : Int)
    have key : activeCount (apps ++ [newA]) t.id = activeCount apps t.id + 1 := by
      unfold activeCount
      rw [List.countP_append]
      have hone : List.countP (fun a => a.tuitionPostId == t.id
          && (a.status == AppStatus.pending || a.status == AppStatus.approved)) [newA] = 1 := by
        simp [List.countP_cons, hnew, hpost, hidt]
      rw [hone]
    rw [hc, key]
    push_cast
    ring
  · rw [if_neg hidt]
    show t.applicants = (activeCount (apps ++ [newA]) t.id : Int)
    have key : activeCount (apps ++ [newA]) t.id = activeCount apps t.id := by
      unfold activeCount
      rw [List.countP_append]
      have hzero : List.countP (fun a => a.tuitionPostId == t.id
          && (a.status == AppStatus.pending || a.status == AppStatus.approved)) [newA] = 0 := by
        have hne : (newA.tuitionPostId == t.id) = false :=
          beq_eq_false_iff_ne.mpr (fun h => hidt ((hpost ▸ h).symm))
        simp [List.countP_cons, hne]
      rw [hzero]
      omega
    rw [hc, key]

/-- In a list with duplicate-free ids, members with equal ids are equal. -/
theorem key_inj {l : List Application} (hnd : (l.map (fun a => a.id)).Nodup)
    {y x : Application} (hy : y ∈ l) (hx : x ∈ l) (h : y.id = x.id) : y = x :=
  List.inj_on_of_nodup_map hnd hy hx h

/-- Withdrawing a unique `pending` application while decrementing the
post's counter preserves the counter invariant. -/
theorem counterInv_delete_aux {apps : List Application} {tuits : List TuitionPost}
    {x : Application} (aid : Nat) (hxid : x.id = aid)
    (hndA : (apps.map (fun a => a.id)).Nodup)
    (hndT : (tuits.map (fun t => t.id)).Nodup)
    (hx : x ∈ apps) (hpend : x.status = .pending)
    (hinv : ∀ t ∈ tuits, t.applicants = (activeCount apps t.id : Int)) :
    ∀ t ∈ updateFirst (fun t => t.id == x.tuitionPostId)
        (fun t => { t with applicants := t.applicants - 1 }) tuits,
      t.applicants = (activeCount (deleteFirst (fun a => a.id == aid) apps) t.id : Int) := by
  have huniq : ∀ y ∈ apps, (y.id == aid) = true → y = x := by
    intro y hy hyid
    exact key_inj hndA hy hx (by rw [beq_iff_eq.mp hyid, hxid])
  have hperm := deleteFirst_perm (q := fun a => a.id == aid) hx (by simp [hxid]) huniq
  have hsplit : ∀ j, activeCount apps j
      = activeCount (deleteFirst (fun a => a.id == aid) apps) j
        + (if x.tuitionPostId = j then 1 else 0) := by
    intro j
    unfold activeCount
    rw [hperm.countP_eq, List.countP_cons]
    by_cases hj : x.tuitionPostId = j
    · simp [hj, hpend]
    · have hb : (x.tuitionPostId == j) = false := beq_eq_false_iff_ne.mpr hj
      simp [hb, hj]
  intro t' ht'
  rw [updateFirst_keyed (k := fun t : TuitionPost => t.id) hndT x.tuitionPostId] at ht'
  rcases List.mem_map.mp ht' with ⟨t, ht, rfl⟩
  have hc := hinv t ht
  by_cases hidt : t.id = x.tuitionPostId
  · rw [if_pos hidt]
    show t.applicants - 1
      = (activeCount (deleteFirst (fun a => a.id == aid) apps) t.id : Int)
    have h1 := hsplit t.id
    rw [if_pos hidt.symm] at h1
    rw [hc, h1]
    push_cast
    ring
  · rw [if_neg hidt]
    show t.applicants
      = (activeCount (deleteFirst (fun a => a.id == aid) apps) t.id : Int)
    have h1 := hsplit t.id
    rw [if_neg (fun h => hidt h.symm)] at h1
    simp only [Nat.add_zero] at h1
    rw [hc, h1]

/-- Rejecting a unique `pending` application while decrementing the
post's counter preserves the counter invariant. -/
theorem counterInv_reject_aux {apps : List Application} {tuits : List TuitionPost}
    {x : Application} (aid now : Nat) (hxid : x.id = aid)
    (hndA : (apps.map (fun a => a.id)).Nodup)
    (hndT : (tuits.map (fun t => t.id)).Nodup)
    (hx : x ∈ apps) (hpend : x.status = .pending)
    (hinv : ∀ t ∈ tuits, t.applicants = (activeCount apps t.id : Int)) :
    ∀ t ∈ updateFirst (fun t => t.id == x.tuitionPostId)
        (fun t => { t with applicants := t.applicants - 1 }) tuits,
      t.applicants = (activeCount (updateFirst (fun a => a.id == aid)
        (fun a => { a with status := AppStatus.rejected, updatedAt := now }) apps) t.id : Int) := by
  have hkey : updateFirst (fun a => a.id == aid)
      (fun a => { a with status := AppStatus.rejected, updatedAt := now }) apps
      = apps.map (fun a => if a.id = aid then { a with status := AppStatus.rejected, updatedAt := now } else a) :=
    updateFirst_keyed (k := fun a : Application => a.id) hndA aid _
  have hlnd : apps.Nodup := List.Nodup.of_map _ hndA
  have hF : ∀ y ∈ apps, y ≠ x →
      (fun a => if a.id = aid then { a with status := AppStatus.rejected, updatedAt := now } else a) y = y := by
    intro y hy hyx
    have hyid : y.id ≠ aid := by
      intro h
      exact hyx (key_inj hndA hy hx (by rw [h, hxid]))
    simp [hyid]
  have hsplit : ∀ j, activeCount apps j
      = activeCount (updateFirst (fun a => a.id == aid)
          (fun a => { a with status := AppStatus.rejected, updatedAt := now }) apps) j
        + (if x.tuitionPostId = j then 1 else 0) := by
    intro j
    rw [hkey]
    unfold activeCount
    have h2 := countP_pointwise_update hlnd hx
      (fun a => if a.id = aid then { a with status := AppStatus.rejected, updatedAt := now } else a) hF
      (fun a => a.tuitionPostId == j && (a.status == AppStatus.pending || a.status == AppStatus.approved))
    simp only [] at h2
    rw [if_pos hxid] at h2
    have hrej : (({ x with status := AppStatus.rejected, updatedAt := now } : Application).tuitionPostId == j
        && (({ x with status := AppStatus.rejected, updatedAt := now } : Application).status == AppStatus.pending
          || ({ x with status := AppStatus.rejected, updatedAt := now } : Application).status == AppStatus.approved)) = false := by
      simp
    rw [hrej] at h2
    by_cases hj : x.tuitionPostId = j
    · have hpx : (x.tuitionPostId == j
          && (x.status == AppStatus.pending || x.status == AppStatus.approved)) = true := by
        simp [hj, hpend]
      rw [hpx] at h2
      simp only [if_true, Bool.false_eq_true, if_false] at h2
      rw [if_pos hj]
      omega
    · have hpx : (x.tuitionPostId == j
          && (x.status == AppStatus.pending || x.status == AppStatus.approved)) = false := by
        have hb : (x.tuitionPostId == j) = false := beq_eq_false_iff_ne.mpr hj
        simp [hb]
      rw [hpx] at h2
      simp only [Bool.false_eq_true, if_false] at h2
      rw [if_neg hj]
      omega
  intro t' ht'
  rw [updateFirst_keyed (k := fun t : TuitionPost => t.id) hndT x.tuitionPostId] at ht'
  rcases List.mem_map.mp ht' with ⟨t, ht, rfl⟩
  have hc := hinv t ht
  by_cases hidt : t.id = x.tuitionPostId
  · rw [if_pos hidt]
    show t.applicants - 1
      = (activeCount (updateFirst (fun a => a.id == aid)
          (fun a => { a with status := AppStatus.rejected, updatedAt := now }) apps) t.id : Int)
    have h1 := hsplit t.id
    rw [if_pos hidt.symm] at h1
    rw [hc, h1]
    push_cast
    ring
  · rw [if_neg hidt]
    show t.applicants
      = (activeCount (updateFirst (fun a => a.id == aid)
          (fun a => { a with status := AppStatus.rejected, updatedAt := now }) apps) t.id : Int)
    have h1 := hsplit t.id
    rw [if_neg (fun h => hidt h.symm)] at h1
    simp only [Nat.add_zero] at h1
    rw [hc, h1]

/-- The payment-assignment steps preserve the counter invariant when the
target application is not `rejected` and no sibling application on the
same post is still `pending`. -/
theorem counterInv_pay_aux {db : DB} {app : Application} (aid now : Nat)
    (hxid : app.id = aid)
    (hndA : (db.applications.map (fun a => a.id)).Nodup)
    (hndT : (db.tuitions.map (fun t => t.id)).Nodup)
    (hx : app ∈ db.applications) (hnr : app.status ≠ .rejected)
    (hsib : ∀ a ∈ db.applications, a.tuitionPostId = app.tuitionPostId → a.id ≠ aid →
      a.status ≠ .pending)
    (hinv : counterInv db) :
    ∀ t ∈ (paymentSteps db app aid now).tuitions,
      t.applicants = (activeCount (paymentSteps db app aid now).applications t.id : Int) := by
  have hA := paymentSteps_applications app aid now hndA
  have hT := paymentSteps_tuitions app aid now hndT
  have hlnd : db.applications.Nodup := List.Nodup.of_map _ hndA
  have hF : ∀ y ∈ db.applications, y ≠ app → paymentAppMap app aid now y = y := by
    intro y hy hyx
    have hyid : y.id ≠ aid := by
      intro h
      exact hyx (key_inj hndA hy hx (by rw [h, hxid]))
    by_cases hyp : y.tuitionPostId = app.tuitionPostId
    · have hnp := hsib y hy hyp hyid
      have hcond : ¬(y.tuitionPostId = app.tuitionPostId ∧ y.status = AppStatus.pending) :=
        fun hh => hnp hh.2
      simp [paymentAppMap, hyid, hcond]
    · have hcond : ¬(y.tuitionPostId = app.tuitionPostId ∧ y.status = AppStatus.pending) :=
        fun hh => hyp hh.1
      simp [paymentAppMap, hyid, hcond]
  have hcount : ∀ j, activeCount (db.applications.map (paymentAppMap app aid now)) j
      = activeCount db.applications j := by
    intro j
    unfold activeCount
    have h2 := countP_pointwise_update hlnd hx (paymentAppMap app aid now) hF
      (fun a => a.tuitionPostId == j && (a.status == AppStatus.pending || a.status == AppStatus.approved))
    simp only [] at h2
    have hpeq : ((paymentAppMap app aid now app).tuitionPostId == j
        && ((paymentAppMap app aid now app).status == AppStatus.pending
          || (paymentAppMap app aid now app).status == AppStatus.approved))
        = (app.tuitionPostId == j
        && (app.status == AppStatus.pending || app.status == AppStatus.approved)) := by
      have hFapp : paymentAppMap app aid now app
          = { app with status := AppStatus.approved, updatedAt := now } := by
        simp [paymentAppMap, hxid]
      rw [hFapp]
      cases hs : app.status with
      | pending => simp
      | approved => simp
      | rejected => exact absurd hs hnr
    rw [hpeq] at h2
    omega
  intro t' ht'
  rw [hT] at ht'
  rw [hA]
  rcases List.mem_map.mp ht' with ⟨t, ht, rfl⟩
  have hc := hinv t ht
  calc (paymentTuitionMap app now t).applicants
      = t.applicants := paymentTuitionMap_applicants app now t
    _ = (activeCount db.applications t.id : Int) := hc
    _ = (activeCount (db.applications.map (paymentAppMap app aid now)) t.id : Int) := by
        rw [hcount t.id]
    _ = (activeCount (db.applications.map (paymentAppMap app aid now))
          (paymentTuitionMap app now t).id : Int) := by
        rw [paymentTuitionMap_id]

/-- `POST /api/applications` preserves the counter invariant on every
path. -/
theorem C3aux_create (db : DB) (te ep : String) (tid : Nat) (q : String)
    (ex sal now : Nat) (hndT : (db.tuitions.map (fun t => t.id)).Nodup)
    (hinv : counterInv db) :
    counterInv (createApplication db te ep tid q ex sal now).2 := by
  simp only [createApplication, withRole, withAuth, verifyToken]
  repeat' split
  any_goals exact hinv
  refine counterInv_create_aux tid ?_ hndT hinv ?_ <;> rfl

/-- `DELETE /api/applications/:id` preserves the counter invariant on
every path. -/
theorem C3aux_delete (db : DB) (te ep : String) (aid : Nat)
    (hndA : (db.applications.map (fun a => a.id)).Nodup)
    (hndT : (db.tuitions.map (fun t => t.id)).Nodup)
    (hinv : counterInv db) :
    counterInv (deleteApplication db te ep aid).2 := by
  simp only [deleteApplication, withRole, withAuth, verifyToken]
  repeat' split
  any_goals exact hinv
  rename_i oA application heqf hst
  have hx := List.mem_of_find?_eq_some heqf
  have hxid : application.id = aid := by
    have hps := List.find?_some heqf
    simp only [Bool.and_eq_true, beq_iff_eq] at hps
    exact hps.1
  have hpend : application.status = AppStatus.pending := by
    simpa using hst
  exact counterInv_delete_aux aid hxid hndA hndT hx hpend hinv

/-- The student's decision route preserves the counter invariant,
provided the target application is still `pending`. -/
theorem C3aux_reject (db : DB) (te ep : String) (aid : Nat) (action : String)
    (now : Nat)
    (hndA : (db.applications.map (fun a => a.id)).Nodup)
    (hndT : (db.tuitions.map (fun t => t.id)).Nodup)
    (hinv : counterInv db)
    (hpendAll : ∀ a ∈ db.applications, a.id = aid → a.status = AppStatus.pending) :
    counterInv (applicationDecision db te ep aid action now).2 := by
  simp only [applicationDecision, withRole, withAuth, verifyToken]
  repeat' split
  any_goals exact hinv
  rename_i application heqA oU stud heqU oT tuip heqT hact
  have hx := List.mem_of_find?_eq_some heqA
  have hxid : application.id = aid := by simpa using List.find?_some heqA
  have hpend := hpendAll application hx hxid
  exact counterInv_reject_aux aid now hxid hndA hndT hx hpend hinv

/-- The payment-confirmation route preserves the counter invariant,
provided the target application is not `rejected` and no sibling
application on the same post is still `pending`. -/
theorem C3aux_pay (db : DB) (te ep : String) (aid : Nat) (pid : String) (now : Nat)
    (hndA : (db.applications.map (fun a => a.id)).Nodup)
    (hndT : (db.tuitions.map (fun t => t.id)).Nodup)
    (hinv : counterInv db)
    (hcond : ∀ app, db.applications.find? (fun a => a.id == aid) = some app →
      app.status ≠ AppStatus.rejected ∧
      ∀ a ∈ db.applications, a.tuitionPostId = app.tuitionPostId → a.id ≠ aid →
        a.status ≠ AppStatus.pending) :
    counterInv (paymentSuccess db te ep aid pid now).2 := by
  simp only [paymentSuccess, withRole, withAuth, verifyToken]
  repeat' split
  any_goals exact hinv
  · rename_i oA application heqA oU hequ
    have hx := List.mem_of_find?_eq_some heqA
    have hxid : application.id = aid := by simpa using List.find?_some heqA
    obtain ⟨hnr, hsib⟩ := hcond application heqA
    exact counterInv_pay_aux aid now hxid hndA hndT hx hnr hsib hinv
  · rename_i oA application heqA oU stud hequ
    have hx := List.mem_of_find?_eq_some heqA
    have hxid : application.id = aid := by simpa using List.find?_some heqA
    obtain ⟨hnr, hsib⟩ := hcond application heqA
    exact counterInv_pay_aux aid now hxid hndA hndT hx hnr hsib hinv

/-- C3 counterexample — as stated, the claim fails on the code: running
the payment-assignment transaction on a post with two pending
applications rejects the sibling without decrementing `applicants`, so
afterwards the counter (2) no longer equals the pending-or-approved
count (1). -/
theorem C3_counterexample :
    counterInv exDb ∧ ¬ counterInv (paymentSuccess exDb "s@x" "s@x" 20 "pi" 1).2 := by
  constructor
  · decide
  · decide

/-- C3 (amended) — the `applicants` counter invariant (counter = number
of pending-or-approved applications on the post) is preserved by
application creation, by tutor withdrawal, and by the student's decision
route when the target application is still `pending` (the code does not
check this, so a repeated reject decrements again); the payment-assignment
transaction preserves it only when the target application is not
`rejected` and no sibling application on the same post is still
`pending` — in general it rejects pending siblings without decrementing
the counter and breaks the equality (see the counterexample). -/
theorem C3_counter_invariant_amended :
    (∀ (db : DB) (te ep : String) (tid : Nat) (q : String) (ex sal now : Nat),
      (db.tuitions.map (fun t => t.id)).Nodup → counterInv db →
      counterInv (createApplication db te ep tid q ex sal now).2) ∧
    (∀ (db : DB) (te ep : String) (aid : Nat),
      (db.applications.map (fun a => a.id)).Nodup →
      (db.tuitions.map (fun t => t.id)).Nodup → counterInv db →
      counterInv (deleteApplication db te ep aid).2) ∧
    (∀ (db : DB) (te ep : String) (aid : Nat) (action : String) (now : Nat),
      (db.applications.map (fun a => a.id)).Nodup →
      (db.tuitions.map (fun t => t.id)).Nodup → counterInv db →
      (∀ a ∈ db.applications, a.id = aid → a.status = AppStatus.pending) →
      counterInv (applicationDecision db te ep aid action now).2) ∧
    (∀ (db : DB) (te ep : String) (aid : Nat) (pid : String) (now : Nat),
      (db.applications.map (fun a => a.id)).Nodup →
      (db.tuitions.map (fun t => t.id)).Nodup → counterInv db →
      (∀ app, db.applications.find? (fun a => a.id == aid) = some app →
        app.status ≠ AppStatus.rejected ∧
        ∀ a ∈ db.applications, a.tuitionPostId = app.tuitionPostId → a.id ≠ aid →
          a.status ≠ AppStatus.pending) →
      counterInv (paymentSuccess db te ep aid pid now).2) :=
  ⟨fun db te ep tid q ex sal now h1 h2 => C3aux_create db te ep tid q ex sal now h1 h2,
   fun db te ep aid h1 h2 h3 => C3aux_delete db te ep aid h1 h2 h3,
   fun db te ep aid action now h1 h2 h3 h4 => C3aux_reject db te ep aid action now h1 h2 h3 h4,
   fun db te ep aid pid now h1 h2 h3 h4 => C3aux_pay db te ep aid pid now h1 h2 h3 h4⟩

/-- Witness: C3's creation case — tutor `accT2` applies to a consistent
deployment (one pending application, counter 1) and the invariant holds
afterwards. -/
theorem C3_witness :
    counterInv (createApplication
      { exDb with tuitions := [{ post10 with applicants := 1 }], applications := [app20] }
      "t2@x" "t2@x" 10 "q" 2 120 5).2 :=
  C3_counter_invariant_amended.1
    { exDb with tuitions := [{ post10 with applicants := 1 }], applications := [app20] }
    "t2@x" "t2@x" 10 "q" 2 120 5 (by decide) (by decide)

/-! ## C8: no two applications for one (post, tutor) pair -/

theorem registerUser_applications (db : DB) (n e p r ui : String) :
    (registerUser db n e p r ui).2.applications = db.applications := by
  unfold registerUser
  repeat' split
  all_goals rfl

theorem createTuition_applications (db : DB) (te ep title subject : String) (now : Nat) :
    (createTuition db te ep title subject now).2.applications = db.applications := by
  simp only [createTuition, withRole, withAuth, verifyToken]
  repeat' split
  all_goals rfl

theorem updateTuition_applications (db : DB) (te ep : String) (tid : Nat)
    (t? s? : Option String) (st? : Option TuitionStatus) (now : Nat) :
    (updateTuition db te ep tid t? s? st? now).2.applications = db.applications := by
  simp only [updateTuition, withRole, withAuth, verifyToken]
  repeat' split
  all_goals rfl

theorem deleteTuition_applications (db : DB) (te ep : String) (tid now : Nat) :
    (deleteTuition db te ep tid now).2.applications = db.applications := by
  simp only [deleteTuition, withRole, withAuth, verifyToken]
  repeat' split
  all_goals rfl

theorem adminApproveTuition_applications (db : DB) (te ep : String) (tid now : Nat) :
    (adminApproveTuition db te ep tid now).2.applications = db.applications := by
  simp only [adminApproveTuition, withRole, withAuth, verifyToken]
  repeat' split
  all_goals rfl

theorem adminRejectTuition_applications (db : DB) (te ep : String) (tid now : Nat) :
    (adminRejectTuition db te ep tid now).2.applications = db.applications := by
  simp only [adminRejectTuition, withRole, withAuth, verifyToken]
  repeat' split
  all_goals rfl

theorem createPaymentIntent_applications (db : DB) (te ep : String) (aid : Nat) :
    (createPaymentIntent db te ep aid).2.applications = db.applications := by
  simp only [createPaymentIntent, withRole, withAuth, verifyToken]
  repeat' split
  all_goals rfl

/-- Step 3's conditional rejection never changes an application's
(post, tutor) pair. -/
theorem pay_g2_pair (post aid now : Nat) (a : Application) :
    appPair (if a.tuitionPostId == post && a.id != aid && a.status == AppStatus.pending
      then { a with status := AppStatus.rejected, updatedAt := now } else a) = appPair a := by
  by_cases h : (a.tuitionPostId == post && a.id != aid && a.status == AppStatus.pending) = true
  · rw [if_pos h]
    rfl
  · rw [if_neg h]

/-- Appending an application whose (post, tutor) pair is absent keeps
the pairs duplicate-free. -/
theorem pairsNodup_insert {apps : List Application} {newA : Application}
    (tid tutId : Nat) (hpost : newA.tuitionPostId = tid) (htut : newA.tutorId = tutId)
    (hnone : apps.find? (fun a => a.tuitionPostId == tid && a.tutorId == tutId) = none)
    (h : pairsNodup apps) : pairsNodup (apps ++ [newA]) := by
  unfold pairsNodup at *
  rw [List.map_append, List.nodup_append]
  refine ⟨h, List.nodup_singleton _, ?_⟩
  intro p hp hq
  rcases List.mem_map.mp hp with ⟨a, ha, rfl⟩
  have hmiss := List.find?_eq_none.mp hnone a ha
  simp only [List.map_cons, List.map_nil, List.mem_singleton] at hq
  apply hmiss
  have h1 : a.tuitionPostId = newA.tuitionPostId ∧ a.tutorId = newA.tutorId := by
    have := congrArg Prod.fst hq
    have h2 := congrArg Prod.snd hq
    exact ⟨this, h2⟩
  simp [h1.1, h1.2, hpost, htut]

theorem createApplication_pairs (db : DB) (te ep : String) (tid : Nat)
    (q : String) (ex sal now : Nat) (h : pairsNodup db.applications) :
    pairsNodup (createApplication db te ep tid q ex sal now).2.applications := by
  simp only [createApplication, withRole, withAuth, verifyToken]
  repeat' split
  any_goals exact h
  rename_i oU tutor hftutor hval oT tpost heqT oA heqnone
  exact pairsNodup_insert tid tutor.id rfl rfl heqnone h

theorem updateApplication_pairs (db : DB) (te ep : String) (aid : Nat)
    (q : String) (ex sal now : Nat) (h : pairsNodup db.applications) :
    pairsNodup (updateApplication db te ep aid q ex sal now).2.applications := by
  simp only [updateApplication, withRole, withAuth, verifyToken]
  repeat' split
  any_goals exact h
  exact pairsNodup_updateFirst (fun a => rfl) h

theorem deleteApplication_pairs (db : DB) (te ep : String) (aid : Nat)
    (h : pairsNodup db.applications) :
    pairsNodup (deleteApplication db te ep aid).2.applications := by
  simp only [deleteApplication, withRole, withAuth, verifyToken]
  repeat' split
  any_goals exact h
  exact pairsNodup_deleteFirst h

theorem applicationDecision_pairs (db : DB) (te ep : String) (aid : Nat)
    (action : String) (now : Nat) (h : pairsNodup db.applications) :
    pairsNodup (applicationDecision db te ep aid action now).2.applications := by
  simp only [applicationDecision, withRole, withAuth, verifyToken]
  repeat' split
  any_goals exact h
  exact pairsNodup_updateFirst (fun a => rfl) h

theorem paymentSuccess_pairs (db : DB) (te ep : String) (aid : Nat)
    (pid : String) (now : Nat) (h : pairsNodup db.applications) :
    pairsNodup (paymentSuccess db te ep aid pid now).2.applications := by
  simp only [paymentSuccess, paymentSteps, withRole, withAuth, verifyToken]
  repeat' split
  any_goals exact h
  all_goals
    exact pairsNodup_of_map (fun a => pay_g2_pair _ _ _ a)
      (pairsNodup_updateFirst (fun a => rfl) h)

/-- Every modelled operation preserves pair uniqueness. -/
theorem step_pairsNodup {a b : DB} (hstep : Step a b)
    (h : pairsNodup a.applications) : pairsNodup b.applications := by
  cases hstep with
  | register n e p r ui => rw [registerUser_applications]; exact h
  | postTuition te ep title subject now => rw [createTuition_applications]; exact h
  | editTuition te ep tid t? s? st? now => rw [updateTuition_applications]; exact h
  | removeTuition te ep tid now => rw [deleteTuition_applications]; exact h
  | approveTuition te ep tid now => rw [adminApproveTuition_applications]; exact h
  | rejectTuition te ep tid now => rw [adminRejectTuition_applications]; exact h
  | apply te ep tid quals exper sal now =>
      exact createApplication_pairs a te ep tid quals exper sal now h
  | editApplication te ep aid quals exper sal now =>
      exact updateApplication_pairs a te ep aid quals exper sal now h
  | withdrawApplication te ep aid => exact deleteApplication_pairs a te ep aid h
  | decide te ep aid action now => exact applicationDecision_pairs a te ep aid action now h
  | intent te ep aid => rw [createPaymentIntent_applications]; exact h
  | pay te ep aid pid now => exact paymentSuccess_pairs a te ep aid pid now h

/-- C8 — in every reachable state no two applications share a
(post, tutor) pair; creation requires an `active` target post (404
otherwise, nothing written) and is refused with the source's conflict
response ("You have already applied to this tuition", HTTP 400) when an
application for the pair already exists, leaving the state unchanged. -/
theorem C8_unique_application_pairs :
    (∀ db : DB, Reachable db → pairsNodup db.applications) ∧
    (∀ (db : DB) (tokenEmail : String) (u : Account) (tid : Nat) (q : String)
        (ex sal now : Nat),
      db.users.find? (fun x => x.email == tokenEmail) = some u →
      u.status ≠ .blocked → u.role = .tutor →
      q ≠ "" → ex ≠ 0 → sal ≠ 0 →
      db.tuitions.find? (fun t => t.id == tid && t.status == .active) = none →
      createApplication db tokenEmail tokenEmail tid q ex sal now
        = (respNotFound "Tuition not found or not available for applications", db)) ∧
    (∀ (db : DB) (tokenEmail : String) (u : Account) (tid : Nat) (q : String)
        (ex sal now : Nat) (t0 : TuitionPost) (ex0 : Application),
      db.users.find? (fun x => x.email == tokenEmail) = some u →
      u.status ≠ .blocked → u.role = .tutor →
      q ≠ "" → ex ≠ 0 → sal ≠ 0 →
      db.tuitions.find? (fun t => t.id == tid && t.status == .active) = some t0 →
      db.applications.find? (fun a => a.tuitionPostId == tid && a.tutorId == u.id)
        = some ex0 →
      createApplication db tokenEmail tokenEmail tid q ex sal now
        = (respBadRequest "You have already applied to this tuition", db)) := by
  refine ⟨?_, ?_, ?_⟩
  · intro db h
    induction h with
    | refl => exact List.nodup_nil
    | tail _hsteps hstep ih => exact step_pairsNodup hstep ih
  · intro db tokenEmail u tid q ex sal now hu hblock hrole hq hex hsal htnone
    have hval : (q == "" || ex == 0 || sal == 0) = false := by
      simp [hq, hex, hsal]
    unfold createApplication
    rw [withRole_ok hu hblock (by simp [hrole])]
    simp only [bne_self_eq_false, Bool.false_eq_true, if_false, hu, hval, htnone]
  · intro db tokenEmail u tid q ex sal now t0 ex0 hu hblock hrole hq hex hsal htact hdup
    have hval : (q == "" || ex == 0 || sal == 0) = false := by
      simp [hq, hex, hsal]
    unfold createApplication
    rw [withRole_ok hu hblock (by simp [hrole])]
    simp only [bne_self_eq_false, Bool.false_eq_true, if_false, hu, hval, htact, hdup]

/-- Witness: C8 at the initial state (reachability) and at the example
deployment, where tutor `accT1` already applied to post 10. -/
theorem C8_witness :
    pairsNodup initDB.applications ∧
    createApplication exDb "t1@x" "t1@x" 10 "q" 1 100 5
      = (respBadRequest "You have already applied to this tuition", exDb) :=
  ⟨C8_unique_application_pairs.1 initDB Relation.ReflTransGen.refl,
   C8_unique_application_pairs.2.2 exDb "t1@x" accT1 10 "q" 1 100 5 post10 app20
     (by decide) (by decide) (by decide) (by decide) (by decide) (by decide) (by decide)
     (by decide)⟩
